import Mathlib

/-!
Shallow embedding of the rule-normalization pipeline of this repository
(generate.py, geosite.py, geoip.py).  Python strings are modelled as
`List Char`; each Python function is translated to a Lean function with the
same name, placed in a `Generate`, `Geosite` or `Geoip` namespace mirroring
the source file it comes from.  HTTP fetching is abstracted by passing the
fetched content (or a fetch function) as an argument; everything else is
translated directly.
-/

/-- Characters stripped by Python `str.strip()` / matched by `\s`
    (the ASCII whitespace range plus U+0085 and U+00A0). -/
def isPySpace (c : Char) : Bool :=
  c = ' ' || c = '\t' || c = '\n' || c = '\r' || c = '\x0b' || c = '\x0c' ||
  c = '\x1c' || c = '\x1d' || c = '\x1e' || c = '\x1f' || c = '\x85' || c = '\xa0'

/-- Python `str.strip()`: drop whitespace from both ends. -/
def pyStrip (cs : List Char) : List Char :=
  ((cs.dropWhile isPySpace).reverse.dropWhile isPySpace).reverse

/-- Whether a character opens a comment in generate.py, i.e. is matched by
    the character class `[#；]` that `re.split` cuts on. -/
def isCommentChar (c : Char) : Bool := c = '#' || c = '；'

/-- The part of the line before the first `#` or `；`: models taking element
    zero of the `re.split` on the class `[#；]` in generate.py. -/
def beforeComment (cs : List Char) : List Char :=
  cs.takeWhile (fun c => !isCommentChar c)

/-- ASCII alphabetic, the class `[a-zA-Z]`. -/
def isAlphaA (c : Char) : Bool := ('a' ≤ c && c ≤ 'z') || ('A' ≤ c && c ≤ 'Z')

/-- ASCII alphanumeric, the class `[a-zA-Z0-9]`. -/
def isAlnumA (c : Char) : Bool := isAlphaA c || ('0' ≤ c && c ≤ '9')

/-- The class `[a-zA-Z0-9-]` of characters allowed inside a domain label. -/
def isLabelChar (c : Char) : Bool := isAlnumA c || c = '-'

/-- Characters of a label after its first one: middle characters may be
    alphanumeric or hyphen, the final character must be alphanumeric.  This is
    the `(?:[a-zA-Z0-9-]{0,61}[a-zA-Z0-9])?` part of the domain regex (the
    61-bound is checked by `validLabel`). -/
def validLabelAux : List Char → Bool
  | [] => true
  | [c] => isAlnumA c
  | c :: rest => isLabelChar c && validLabelAux rest

/-- One inner label of the domain regex shared by generate.py and geosite.py:
    `[a-zA-Z0-9](?:[a-zA-Z0-9-]{0,61}[a-zA-Z0-9])?`. -/
def validLabel : List Char → Bool
  | [] => false
  | c :: rest => isAlnumA c && decide (rest.length ≤ 62) && validLabelAux rest

/-- The final label of the domain regex: `[a-zA-Z]{2,}`. -/
def validTld (cs : List Char) : Bool :=
  decide (2 ≤ cs.length) && cs.all isAlphaA

/-- Accumulating acceptor for the anchored domain regex
    `^(?:label\.)+[a-zA-Z]{2,}$`: dots delimit labels, every label before a
    dot must satisfy `validLabel`, and the final dot-free segment must satisfy
    `validTld`.  `acc` is the segment read since the last dot. -/
def domainAux (acc : List Char) : List Char → Bool
  | [] => validTld acc
  | c :: rest =>
      if c = '.' then validLabel acc && domainAux [] rest
      else domainAux (acc ++ [c]) rest

/-- `is_valid_domain` of generate.py; the identical anchored regex is the
    `domain` pattern of geosite.py `parse_domain_line`.  The `+` on the label
    group requires at least one dot-terminated label, hence the `contains`
    conjunct. -/
def is_valid_domain (cs : List Char) : Bool := domainAux [] cs && cs.contains '.'

/-- The two entry kinds produced by `process_domain_line` in generate.py
    (the Python strings domain and domain-suffix). -/
inductive DKind
  | domain
  | suffix
  deriving DecidableEq, Repr

namespace Generate

/-- generate.py `process_domain_line`: strip, cut any `#`/`；` comment, strip
    again, then classify by prefix.  Returns the Python pair (type, value),
    either component of which may be `none`.  The `split(',', 1)[1]` in the
    `DOMAIN,`/`DOMAIN-SUFFIX,` branches is `l.drop 7` / `l.drop 14` because
    the matched prefix contains the first comma of the line. -/
def process_domain_line (line : List Char) : Option DKind × Option (List Char) :=
  let l := pyStrip (beforeComment (pyStrip line))
  if l = [] then (none, none)
  else if ("DOMAIN,".data).isPrefixOf l then
    let d := pyStrip (l.drop 7)
    (some .domain, if is_valid_domain d then some d else none)
  else if ("DOMAIN-SUFFIX,".data).isPrefixOf l then
    let d := pyStrip (l.drop 14)
    (some .suffix, if is_valid_domain d then some d else none)
  else if l.head? = some '.' then
    let d := l.dropWhile (fun c => c = '.')
    (some .suffix, if is_valid_domain d then some d else none)
  else if is_valid_domain l then (some .domain, some l)
  else (none, none)

end Generate

namespace Geosite

/-- geosite.py `parse_domain_line`: the regex cascade in source order.
    Returns (domains, domain_suffixes), each holding at most one value.
    The `domain_line` pattern `^DOMAIN,(.+)$` matches exactly when the text
    after the comma is non-empty and newline-free (the input is stripped, so
    `$` can only match at the very end); similarly for `domain_suffix_line`.
    The `server_line` pattern `^server=/([^/]+)/` needs a non-empty run of
    non-slash characters terminated by a further slash. -/
def parse_domain_line (line : List Char) : List (List Char) × List (List Char) :=
  let l := pyStrip line
  if is_valid_domain l then ([l], [])
  else if l.head? = some '.' || ("+.".data).isPrefixOf l then
    ([], [l.dropWhile (fun c => c = '.' || c = '+')])
  else if ("DOMAIN,".data).isPrefixOf l ∧ l.drop 7 ≠ [] ∧ ¬ ('\n' ∈ l.drop 7) then
    ([l.drop 7], [])
  else if ("DOMAIN-SUFFIX,".data).isPrefixOf l ∧ l.drop 14 ≠ [] ∧ ¬ ('\n' ∈ l.drop 14) then
    ([], [l.drop 14])
  else if ("server=/".data).isPrefixOf l ∧ (l.drop 8).takeWhile (fun c => c ≠ '/') ≠ [] ∧
      ((l.drop 8).takeWhile (fun c => c ≠ '/')).length < (l.drop 8).length then
    ([(l.drop 8).takeWhile (fun c => c ≠ '/')], [])
  else ([], [])

end Geosite

/-- ASCII decimal digit, the regex class `\d`. -/
def isDigitA (c : Char) : Bool := '0' ≤ c && c ≤ '9'

/-- ASCII hexadecimal digit, the regex class `[0-9a-fA-F]`. -/
def isHexA (c : Char) : Bool := isDigitA c || ('a' ≤ c && c ≤ 'f') || ('A' ≤ c && c ≤ 'F')

namespace Generate

/-- One `\d{1,3}\.` step of the IPv4 pattern in `is_valid_ip_cidr`: consume a
    run of 1 to 3 digits followed by a literal dot, returning the remainder
    (the digit run is maximal, which agrees with regex backtracking because a
    longer run leaves a digit, not a dot, as the next character). -/
def matchOct (cs : List Char) : Option (List Char) :=
  let d := cs.takeWhile isDigitA
  if 1 ≤ d.length ∧ d.length ≤ 3 then
    match cs.dropWhile isDigitA with
    | '.' :: r => some r
    | _ => none
  else none

/-- The tail `\d{1,3}(/\d{1,2})?$` of the IPv4 pattern. -/
def matchTail4 (cs : List Char) : Bool :=
  let d := cs.takeWhile isDigitA
  if 1 ≤ d.length ∧ d.length ≤ 3 then
    match cs.dropWhile isDigitA with
    | [] => true
    | '/' :: ds => decide (1 ≤ ds.length ∧ ds.length ≤ 2) && ds.all isDigitA
    | _ => false
  else false

/-- The anchored IPv4 pattern `^\d{1,3}\.\d{1,3}\.\d{1,3}\.\d{1,3}(/\d{1,2})?$`
    of generate.py `is_valid_ip_cidr`. -/
def isIpv4Shape (cs : List Char) : Bool :=
  match matchOct cs with
  | some r1 =>
    match matchOct r1 with
    | some r2 =>
      match matchOct r2 with
      | some r3 => matchTail4 r3
      | none => false
    | none => false
  | none => false

/-- One `[0-9a-fA-F]{1,4}:` step of the IPv6 pattern. -/
def matchHexGroup (cs : List Char) : Option (List Char) :=
  let d := cs.takeWhile isHexA
  if 1 ≤ d.length ∧ d.length ≤ 4 then
    match cs.dropWhile isHexA with
    | ':' :: r => some r
    | _ => none
  else none

/-- The tail `[0-9a-fA-F]{1,4}(/\d{1,3})?$` of the IPv6 pattern. -/
def matchTail6 (cs : List Char) : Bool :=
  let d := cs.takeWhile isHexA
  if 1 ≤ d.length ∧ d.length ≤ 4 then
    match cs.dropWhile isHexA with
    | [] => true
    | '/' :: ds => decide (1 ≤ ds.length ∧ ds.length ≤ 3) && ds.all isDigitA
    | _ => false
  else false

/-- The anchored IPv6 pattern
    `^([0-9a-fA-F]{1,4}:){7}[0-9a-fA-F]{1,4}(/\d{1,3})?$` of
    generate.py `is_valid_ip_cidr` (seven colon-terminated groups). -/
def isIpv6Shape (cs : List Char) : Bool :=
  match ((((((matchHexGroup cs).bind matchHexGroup).bind matchHexGroup).bind
      matchHexGroup).bind matchHexGroup).bind matchHexGroup).bind matchHexGroup with
  | some r => matchTail6 r
  | none => false

/-- generate.py `is_valid_ip_cidr`: the string matches the IPv4 pattern or
    the IPv6 pattern (pure shape checks, no numeric range check). -/
def is_valid_ip_cidr (cs : List Char) : Bool := isIpv4Shape cs || isIpv6Shape cs

/-- The regex class `[,\s]` of separators after the optional `IP-CIDR` tag in
    `extract_ip_cidr`. -/
def isSepChar (c : Char) : Bool := c = ',' || isPySpace c

/-- Greedy `(\S+)`: the maximal non-space run at the head, if non-empty. -/
def nonSpaceRun (cs : List Char) : Option (List Char) :=
  let r := cs.takeWhile (fun c => !isPySpace c)
  if r = [] then none else some r

/-- Backtracking over the greedy `[,\s]+`: try separator runs of length
    `j, j-1, ..., 1` and match `(\S+)` on the remainder of each. -/
def sepsRestGo (cs : List Char) : Nat → Option (List Char)
  | 0 => none
  | j + 1 =>
    match nonSpaceRun (cs.drop (j + 1)) with
    | some g => some g
    | none => sepsRestGo cs j

/-- Match `[,\s]+(\S+)` at the head of `cs`: the separator run is taken
    greedily, then given back one character at a time until `(\S+)` matches. -/
def matchSepsRest (cs : List Char) : Option (List Char) :=
  sepsRestGo cs (cs.takeWhile isSepChar).length

/-- Try the pattern `(IP-CIDR6?[,\s]+)?(\S+)` of `extract_ip_cidr` at one
    position, alternatives in regex backtracking order (`IP-CIDR6` tag,
    `IP-CIDR` tag, empty optional group); returns group 2. -/
def matchAtPos (cs : List Char) : Option (List Char) :=
  match (if ("IP-CIDR6".data).isPrefixOf cs then matchSepsRest (cs.drop 8) else none) with
  | some g => some g
  | none =>
    match (if ("IP-CIDR".data).isPrefixOf cs then matchSepsRest (cs.drop 7) else none) with
    | some g => some g
    | none => nonSpaceRun cs

/-- `re.search` for the pattern above: try each position left to right and
    return group 2 of the first successful match. -/
def reSearchGroup2 : List Char → Option (List Char)
  | [] => none
  | c :: rest =>
    match matchAtPos (c :: rest) with
    | some g => some g
    | none => reSearchGroup2 rest

/-- generate.py `extract_ip_cidr`: group 2 of the first regex match, if it
    also passes `is_valid_ip_cidr`; a failed validity check returns `None`
    without searching further, exactly as in the source. -/
def extract_ip_cidr (line : List Char) : Option (List Char) :=
  match reSearchGroup2 line with
  | some g => if is_valid_ip_cidr g then some g else none
  | none => none

/-- generate.py `process_ip_line`: strip, cut any `#`/`；` comment, strip
    again, reject empty, then `extract_ip_cidr`. -/
def process_ip_line (line : List Char) : Option (List Char) :=
  let l := pyStrip (beforeComment (pyStrip line))
  if l = [] then none else extract_ip_cidr l

end Generate

/-- Lexicographic code point order on Python strings (string `<=` as used by
    Python `sorted`). -/
def strLe : List Char → List Char → Bool
  | [], _ => true
  | _ :: _, [] => false
  | x :: xs, y :: ys => if x < y then true else if x = y then strLe xs ys else false

/-- `strLe` as a relation, for use with `List.insertionSort`. -/
def strLeProp (a b : List Char) : Prop := strLe a b = true

instance : DecidableRel strLeProp :=
  fun a b => inferInstanceAs (Decidable (strLe a b = true))

namespace Generate

/-- generate.py `process_ip_urls` with fetching abstracted: `lines` is the
    concatenation of the fetched documents; the extracted CIDRs are collected
    into a set and emitted as `sorted(ip_cidrs)` (plain lexicographic string
    sort, modelled by a stable sort of the deduplicated list). -/
def process_ip_content (lines : List (List Char)) : List (List Char) :=
  List.insertionSort strLeProp ((lines.filterMap process_ip_line).dedup)

end Generate

/-- Numeric value of a decimal digit string (as Python `int`). -/
def natOfDigits (ds : List Char) : Nat :=
  ds.foldl (fun a c => a * 10 + (c.toNat - 48)) 0

/-- Numeric value of one hexadecimal digit. -/
def hexVal (c : Char) : Nat :=
  if isDigitA c then c.toNat - 48
  else if 'a' ≤ c && c ≤ 'f' then c.toNat - 87
  else if 'A' ≤ c && c ≤ 'F' then c.toNat - 55
  else 0

/-- Numeric value of a hexadecimal digit string. -/
def natOfHex (ds : List Char) : Nat := ds.foldl (fun a c => a * 16 + hexVal c) 0

/-- Split on a separator character (Python `str.split(sep)`). -/
def splitSep (sep : Char) : List Char → List (List Char)
  | [] => [[]]
  | c :: rest =>
    if c = sep then [] :: splitSep sep rest
    else
      match splitSep sep rest with
      | [] => [[c]]
      | p :: ps => (c :: p) :: ps

namespace Geoip

/-- Split an IPv6 literal at its first `::`, when present. -/
def splitDoubleColon : List Char → Option (List Char × List Char)
  | ':' :: ':' :: rest => some ([], rest)
  | c :: rest => (splitDoubleColon rest).map (fun p => (c :: p.1, p.2))
  | [] => none

/-- The eight 16-bit groups of an IPv6 address, `::` expanded with zero
    groups; used to model the integer value of
    `ipaddress.IPv6Network(...).network_address`. -/
def ipv6Groups (addr : List Char) : List Nat :=
  match splitDoubleColon addr with
  | some (l, r) =>
    let gl := if l = [] then [] else (splitSep ':' l).map natOfHex
    let gr := if r = [] then [] else (splitSep ':' r).map natOfHex
    gl ++ List.replicate (8 - gl.length - gr.length) 0 ++ gr
  | none => (splitSep ':' addr).map natOfHex

/-- Integer value of an IPv6 address literal. -/
def ipv6ToNat (addr : List Char) : Nat :=
  (ipv6Groups addr).foldl (fun a g => a * 65536 + g) 0

/-- Integer value of an IPv4 address literal. -/
def ipv4ToNat (addr : List Char) : Nat :=
  match (splitSep '.' addr).map natOfDigits with
  | [a, b, c, d] => ((a * 256 + b) * 256 + c) * 256 + d
  | _ => 0

/-- The sort key used by geoip.py `sort_ip_cidrs`:
    `(ip_network(x).network_address, ip_network(x).prefixlen)` as a pair of
    naturals (the address as its integer value; a missing `/prefix` defaults
    to the full mask length, as in `ipaddress.ip_network`). -/
def cidrKey (cs : List Char) : Nat × Nat :=
  let addr := cs.takeWhile (fun c => c ≠ '/')
  let isV6 := addr.contains ':'
  let a := if isV6 then ipv6ToNat addr else ipv4ToNat addr
  let p :=
    match cs.dropWhile (fun c => c ≠ '/') with
    | '/' :: ds => natOfDigits ds
    | _ => if isV6 then 128 else 32
  (a, p)

/-- Lexicographic comparison of Python key tuples. -/
def keyLe (x y : Nat × Nat) : Bool :=
  decide (x.1 < y.1) || (decide (x.1 = y.1) && decide (x.2 ≤ y.2))

/-- The sort relation of geoip.py `sort_ip_cidrs`. -/
def cidrRel (a b : List Char) : Prop := keyLe (cidrKey a) (cidrKey b) = true

instance : DecidableRel cidrRel :=
  fun a b => inferInstanceAs (Decidable (keyLe (cidrKey a) (cidrKey b) = true))

/-- geoip.py `sort_ip_cidrs`: Python `sorted` with the key above is a stable
    sort, modelled as insertion sort. -/
def sort_ip_cidrs (cidrs : List (List Char)) : List (List Char) :=
  List.insertionSort cidrRel cidrs

end Geoip

/-- JSON values, modelling the objects passed to `json.dump` (serialization
    and file I/O abstracted away). -/
inductive JVal
  | num (n : Nat)
  | str (s : List Char)
  | arr (xs : List JVal)
  | obj (fields : List (List Char × JVal))

/-- First field with the given key in a JSON object field list. -/
def getField : List (List Char × JVal) → List Char → Option JVal
  | [], _ => none
  | (k2, v) :: rest, k => if k2 = k then some v else getField rest k

/-- The fields of the single rule object in `{"version": 1, "rules": [rule]}`. -/
def firstRuleFields (j : JVal) : Option (List (List Char × JVal)) :=
  match j with
  | .obj fs =>
    match getField fs ("rules".data) with
    | some (.arr (.obj rf :: _)) => some rf
    | _ => none
  | _ => none

/-- The keys of the single rule object, in emission order. -/
def ruleKeys (j : JVal) : Option (List (List Char)) :=
  (firstRuleFields j).map (fun fs => fs.map Prod.fst)

/-- Look a key up in the single rule object. -/
def getRuleField (j : JVal) (k : List Char) : Option JVal :=
  (firstRuleFields j).bind (fun fs => getField fs k)

namespace Generate

/-- generate.py `write_domain_json`: the value passed to `json.dump`; both
    category keys are always present, `ip_cidr` never is. -/
def write_domain_json (domains suffixes : List (List Char)) : JVal :=
  .obj [("version".data, .num 1),
        ("rules".data, .arr [.obj
          [("domain".data, .arr (domains.map .str)),
           ("domain_suffix".data, .arr (suffixes.map .str))]])]

/-- generate.py `write_ip_json`. -/
def write_ip_json (ip_cidrs : List (List Char)) : JVal :=
  .obj [("version".data, .num 1),
        ("rules".data, .arr [.obj [("ip_cidr".data, .arr (ip_cidrs.map .str))]])]

/-- generate.py `write_domain_list`: the emitted lines, domains before
    suffixes. -/
def write_domain_list_lines (domains suffixes : List (List Char)) : List (List Char) :=
  domains.map (fun d => "DOMAIN,".data ++ d) ++
    suffixes.map (fun s => "DOMAIN-SUFFIX,".data ++ s)

/-- generate.py `write_ip_list`: the emitted lines (`IP-CIDR6,` for entries
    containing a colon, `IP-CIDR,` otherwise). -/
def write_ip_list_lines (ip_cidrs : List (List Char)) : List (List Char) :=
  ip_cidrs.map (fun c =>
    if c.contains ':' then "IP-CIDR6,".data ++ c else "IP-CIDR,".data ++ c)

end Generate

namespace Geosite

/-- geosite.py `write_json`: same shape as generate.py `write_domain_json`. -/
def write_json (domains suffixes : List (List Char)) : JVal :=
  .obj [("version".data, .num 1),
        ("rules".data, .arr [.obj
          [("domain".data, .arr (domains.map .str)),
           ("domain_suffix".data, .arr (suffixes.map .str))]])]

/-- geosite.py `write_list`: the emitted lines, domains before suffixes. -/
def write_list_lines (domains suffixes : List (List Char)) : List (List Char) :=
  domains.map (fun d => "DOMAIN,".data ++ d) ++
    suffixes.map (fun s => "DOMAIN-SUFFIX,".data ++ s)

end Geosite

namespace Geoip

/-- geoip.py `write_json`: one `ip_cidr` array holding the IPv4 entries
    followed by the IPv6 entries. -/
def write_json (ipv4 ipv6 : List (List Char)) : JVal :=
  .obj [("version".data, .num 1),
        ("rules".data, .arr [.obj
          [("ip_cidr".data, .arr ((ipv4 ++ ipv6).map .str))]])]

/-- geoip.py `write_list`: the emitted lines, all IPv4 before all IPv6. -/
def write_list_lines (ipv4 ipv6 : List (List Char)) : List (List Char) :=
  ipv4.map (fun c => "IP-CIDR,".data ++ c) ++
    ipv6.map (fun c => "IP-CIDR6,".data ++ c)

end Geoip

/-- Modelled from the spec (section 4.2, IP/CIDR validity), as a reference
    point for comparison with the code: an IPv4 network literal has four
    octets with values 0 to 255 and an optional prefix 0 to 32. -/
def specValidIpV4 (cs : List Char) : Bool :=
  (match splitSep '.' (cs.takeWhile (fun c => c ≠ '/')) with
   | [a, b, c, d] =>
     [a, b, c, d].all (fun p =>
       decide (1 ≤ p.length ∧ p.length ≤ 3) && p.all isDigitA &&
         decide (natOfDigits p ≤ 255))
   | _ => false) &&
  (match cs.dropWhile (fun c => c ≠ '/') with
   | [] => true
   | '/' :: ds => decide (1 ≤ ds.length) && ds.all isDigitA && decide (natOfDigits ds ≤ 32)
   | _ => false)

/-- Modelled from the spec (section 4.2, IP/CIDR validity): an IPv6 network
    literal has hexadecimal groups of 1 to 4 digits, eight of them, or fewer
    with one `::` compression, and an optional prefix 0 to 128. -/
def specValidIpV6 (cs : List Char) : Bool :=
  (match Geoip.splitDoubleColon (cs.takeWhile (fun c => c ≠ '/')) with
   | some (l, r) =>
     (l = [] || (splitSep ':' l).all (fun g =>
        decide (1 ≤ g.length ∧ g.length ≤ 4) && g.all isHexA)) &&
     (r = [] || (splitSep ':' r).all (fun g =>
        decide (1 ≤ g.length ∧ g.length ≤ 4) && g.all isHexA)) &&
     decide ((if l = [] then 0 else (splitSep ':' l).length) +
       (if r = [] then 0 else (splitSep ':' r).length) ≤ 7)
   | none =>
     decide ((splitSep ':' (cs.takeWhile (fun c => c ≠ '/'))).length = 8) &&
       (splitSep ':' (cs.takeWhile (fun c => c ≠ '/'))).all (fun g =>
         decide (1 ≤ g.length ∧ g.length ≤ 4) && g.all isHexA)) &&
  (match cs.dropWhile (fun c => c ≠ '/') with
   | [] => true
   | '/' :: ds => decide (1 ≤ ds.length) && ds.all isDigitA && decide (natOfDigits ds ≤ 128)
   | _ => false)

/-- Modelled from the spec (section 4.2): a valid IP/CIDR is a valid IPv4 or
    IPv6 network literal with an in-range optional prefix. -/
def specValidIpCidr (cs : List Char) : Bool := specValidIpV4 cs || specValidIpV6 cs

/-- Python `str.splitlines()` restricted to `\n` terminators (the only ones
    occurring in the fetched documents): a trailing terminator produces no
    empty final line, and the empty string has no lines. -/
def pySplitlines (cs : List Char) : List (List Char) :=
  if cs = [] then []
  else if cs.getLast? = some '\n' then (splitSep '\n' cs).dropLast
  else splitSep '\n' cs

namespace Geosite

/-- geosite.py `extract_domains`, with HTTP fetching abstracted into the
    `fetch` argument: references starting with `http` are fetched, others are
    treated as literal text and split into lines; classified values are
    accumulated into sets and returned as sorted lists (Python
    `sorted(set(...))`, modelled as sorting the deduplicated list). -/
def extract_domains (fetch : List Char → List (List Char)) (urls : List (List Char)) :
    List (List Char) × List (List Char) :=
  let lines := urls.flatMap (fun u =>
    if ("http".data).isPrefixOf u then fetch u else pySplitlines u)
  (List.insertionSort strLeProp (lines.flatMap (fun l => (parse_domain_line l).1)).dedup,
   List.insertionSort strLeProp (lines.flatMap (fun l => (parse_domain_line l).2)).dedup)

end Geosite

/-- Observable reporting and file-system effects of the pipeline drivers: a
    file write, a printed warning for an empty job, or a `logging.error`
    report. -/
inductive FsEvent
  | wrote (filename : List Char)
  | warn (base : List Char)
  | error (base : List Char)
  deriving DecidableEq, Repr

namespace Geosite

/-- The output file extensions written per successful geosite job, in the
    order the write calls appear in the source. -/
def geositeExts : List (List Char) :=
  [".json".data, ".list".data, ".txt".data, ".yaml".data, ".snippet".data]

/-- Effects of one geosite job: a warning and no writes when both categories
    come back empty, otherwise one write per output format (the `.srs` and
    `.mrs` conversions invoke external binaries and are outside the model). -/
def jobEvents (fetch : List Char → List (List Char))
    (job : List Char × List (List Char)) : List FsEvent :=
  if (extract_domains fetch job.2).1 = [] ∧ (extract_domains fetch job.2).2 = [] then
    [.warn job.1]
  else geositeExts.map (fun e => .wrote (job.1 ++ e))

/-- geosite.py `process_urls`: each configured job handled in order,
    independently of the others. -/
def process_urls (fetch : List Char → List (List Char))
    (config : List (List Char × List (List Char))) : List FsEvent :=
  config.flatMap (jobEvents fetch)

end Geosite

/-- Characters that can occur in a string accepted by `is_valid_ip_cidr`. -/
def isIpChar (c : Char) : Bool := isHexA c || c = '.' || c = ':' || c = '/'

/-- A value free of whitespace and comment characters, as produced for the
    entry categories by validation. -/
def CleanVal (v : List Char) : Prop :=
  ∀ c ∈ v, isPySpace c = false ∧ isCommentChar c = false

/-- A value that can survive the round trip through the List format:
    non-empty, newline-free and with no trailing whitespace. -/
def Storable (v : List Char) : Prop :=
  v ≠ [] ∧ '\n' ∉ v ∧ isPySpace (v.getLastD 'x') = false

instance (v : List Char) : Decidable (CleanVal v) := by
  unfold CleanVal
  infer_instance

instance (v : List Char) : Decidable (Storable v) := by
  unfold Storable
  infer_instance

namespace Geoip

/-- geoip.py `remove_comments`: strip each line and keep only non-empty lines
    that do not begin with `#` or `;` (ASCII semicolon); trailing comments
    are left in place. -/
def remove_comments (lines : List (List Char)) : List (List Char) :=
  lines.filterMap (fun line =>
    if pyStrip line ≠ [] ∧ (pyStrip line).head? ≠ some '#' ∧
        (pyStrip line).head? ≠ some ';' then
      some (pyStrip line)
    else none)

end Geoip

/-- Shape of one octet field as consumed by the IPv4 regex: one to three
    decimal digits, with no constraint on the numeric value. -/
def OctetShape (d : List Char) : Prop :=
  d ≠ [] ∧ d.length ≤ 3 ∧ ∀ c ∈ d, isDigitA c = true

/-- Shape of one IPv6 group field: one to four hexadecimal digits. -/
def HexShape (g : List Char) : Prop :=
  g ≠ [] ∧ g.length ≤ 4 ∧ ∀ c ∈ g, isHexA c = true

/-- Shape of an optional prefix field: absent, or one to `n` decimal digits
    with no constraint on the numeric value. -/
def PfxShape (n : Nat) : Option (List Char) → Prop
  | none => True
  | some ps => ps ≠ [] ∧ ps.length ≤ n ∧ ∀ c ∈ ps, isDigitA c = true

/-- The text contributed by an optional `/prefix`. -/
def pfxPart : Option (List Char) → List Char
  | none => []
  | some ps => '/' :: ps

instance (d : List Char) : Decidable (OctetShape d) := by
  unfold OctetShape
  infer_instance

instance (g : List Char) : Decidable (HexShape g) := by
  unfold HexShape
  infer_instance

instance (n : Nat) : (pfx : Option (List Char)) → Decidable (PfxShape n pfx)
  | none => .isTrue trivial
  | some ps => by simp only [PfxShape]; infer_instance

/-- Re-classifying a list of produced lines with geosite.py
    `parse_domain_line` and aggregating the per-line results in order, as
    `extract_domains` does over a document. -/
def collect_lines (lines : List (List Char)) : List (List Char) × List (List Char) :=
  (lines.flatMap (fun l => (Geosite.parse_domain_line l).1),
   lines.flatMap (fun l => (Geosite.parse_domain_line l).2))

instance : IsTotal (List Char) Geoip.cidrRel := by
  constructor
  intro a b
  simp only [Geoip.cidrRel, Geoip.keyLe, Bool.or_eq_true, Bool.and_eq_true,
    decide_eq_true_eq]
  omega

instance : IsTrans (List Char) Geoip.cidrRel := by
  constructor
  intro a b c hab hbc
  simp only [Geoip.cidrRel, Geoip.keyLe, Bool.or_eq_true, Bool.and_eq_true,
    decide_eq_true_eq] at hab hbc ⊢
  omega

/-! ### geoip.py extraction and the remaining pipeline drivers -/

namespace Geoip

/-- ASCII word characters: the `\w` class that the `\b` boundary assertions
    of the extraction patterns in geoip.py `parse_ip_line` refer to. -/
def isWordChar (c : Char) : Bool := isAlnumA c || c = '_'

/-- One `\d{1,3}\.` step of the IPv4 extraction pattern: the maximal run of
    digits at the current position must have one to three characters and be
    followed by a dot (any shorter backtracking take leaves a digit where the
    dot is required, so the maximal take is the only candidate); returns the
    consumed text and the remainder. -/
def chompOctDot (cs : List Char) : Option (List Char × List Char) :=
  let d := cs.takeWhile isDigitA
  if 1 ≤ d.length ∧ d.length ≤ 3 then
    match cs.dropWhile isDigitA with
    | '.' :: r => some (d ++ ['.'], r)
    | _ => none
  else none

/-- The `\d{1,3}/` step before the prefix field. -/
def chompOctSlash (cs : List Char) : Option (List Char × List Char) :=
  let d := cs.takeWhile isDigitA
  if 1 ≤ d.length ∧ d.length ≤ 3 then
    match cs.dropWhile isDigitA with
    | '/' :: r => some (d ++ ['/'], r)
    | _ => none
  else none

/-- The final `\d{1,2}\b` of the IPv4 pattern: one to two digits whose
    maximal run is followed by a non-word character or the end of the input
    (a longer run, or a following word character, leaves no boundary under
    any backtracking take, every shorter take ending before a digit). -/
def chompPfx2 (cs : List Char) : Option (List Char × List Char) :=
  let d := cs.takeWhile isDigitA
  if 1 ≤ d.length ∧ d.length ≤ 2 then
    match cs.dropWhile isDigitA with
    | [] => some (d, [])
    | c :: r => if isWordChar c then none else some (d, c :: r)
  else none

/-- One attempt of `\d{1,3}\.\d{1,3}\.\d{1,3}\.\d{1,3}/\d{1,2}\b` at the
    current position (the leading `\b` is checked by the scanner). -/
def matchV4At (cs : List Char) : Option (List Char × List Char) :=
  (chompOctDot cs).bind fun p1 =>
  (chompOctDot p1.2).bind fun p2 =>
  (chompOctDot p2.2).bind fun p3 =>
  (chompOctSlash p3.2).bind fun p4 =>
  (chompPfx2 p4.2).map fun p5 =>
  (p1.1 ++ p2.1 ++ p3.1 ++ p4.1 ++ p5.1, p5.2)

/-- One attempt of `[0-9a-fA-F:]+/\d{1,3}\b` at the current position: the
    greedy class run is maximal (a slash is outside the class, so no
    backtracking take can reach one earlier), and the digit run behaves as
    in `chompPfx2` but with up to three digits. -/
def matchV6At (cs : List Char) : Option (List Char × List Char) :=
  let run := cs.takeWhile (fun c => isHexA c || c = ':')
  if run = [] then none
  else
    match cs.dropWhile (fun c => isHexA c || c = ':') with
    | '/' :: r =>
      let d := r.takeWhile isDigitA
      if 1 ≤ d.length ∧ d.length ≤ 3 then
        match r.dropWhile isDigitA with
        | [] => some (run ++ '/' :: d, [])
        | c :: r2 => if isWordChar c then none else some (run ++ '/' :: d, c :: r2)
      else none
    | _ => none

/-- Scanner of Python `re.findall`: at every position where a word boundary
    holds (the word-ness of the previous character differs from that of the
    current one, a missing previous character counting as non-word), try the
    pattern; on a match collect the group and resume scanning at the match
    end, otherwise advance one character.  The fuel argument is kept one
    above the remaining length; since both matchers consume at least one
    character, it never reaches zero on a non-empty input. -/
def reFindAllGo (matchAt : List Char → Option (List Char × List Char)) :
    Nat → Option Char → List Char → List (List Char)
  | 0, _, _ => []
  | _ + 1, _, [] => []
  | fuel + 1, prev, c :: rest =>
    let prevWord := match prev with | some p => isWordChar p | none => false
    if prevWord ≠ isWordChar c then
      match matchAt (c :: rest) with
      | some (g, r) => g :: reFindAllGo matchAt fuel (some (g.getLastD c)) r
      | none => reFindAllGo matchAt fuel (some c) rest
    else reFindAllGo matchAt fuel (some c) rest

/-- Python `re.findall(pattern, line)` for one of the extraction patterns. -/
def reFindAll (matchAt : List Char → Option (List Char × List Char))
    (line : List Char) : List (List Char) :=
  reFindAllGo matchAt (line.length + 1) none line

/-- One octet as parsed by Python `ipaddress`: one to three decimal digits,
    value at most 255, and no leading zero unless the octet is exactly 0. -/
def pyValidOctet (p : List Char) : Bool :=
  decide (1 ≤ p.length ∧ p.length ≤ 3) && p.all isDigitA &&
  decide (natOfDigits p ≤ 255) &&
  (decide (p.length = 1) || decide (p.headD 'x' ≠ '0'))

/-- One hexadecimal group of an IPv6 literal: one to four hex digits. -/
def hexGroupOk (g : List Char) : Bool :=
  decide (1 ≤ g.length ∧ g.length ≤ 4) && g.all isHexA

/-- Python `ipaddress.IPv4Network(g)` succeeding: four valid octets, an
    optional prefix of value at most 32, and (strict=True being the default)
    zero host bits below the prefix; a missing prefix defaults to /32. -/
def pyValidIpv4Network (g : List Char) : Bool :=
  let addr := g.takeWhile (fun c => c ≠ '/')
  let octs := splitSep '.' addr
  (decide (octs.length = 4) && octs.all pyValidOctet) &&
  (match g.dropWhile (fun c => c ≠ '/') with
   | [] => true
   | '/' :: ds =>
     decide (1 ≤ ds.length) && ds.all isDigitA && decide (natOfDigits ds ≤ 32) &&
     decide (ipv4ToNat addr % 2 ^ (32 - natOfDigits ds) = 0)
   | _ => false)

/-- Python `ipaddress.IPv6Network(g)` succeeding on a colon-hex literal (the
    extraction pattern admits no dotted-quad tail): eight groups of one to
    four hex digits, or at most seven of them around a single `::`; an
    optional prefix of value at most 128 and the strict host-bit check, as
    for IPv4. -/
def pyValidIpv6Network (g : List Char) : Bool :=
  let addr := g.takeWhile (fun c => c ≠ '/')
  (match splitDoubleColon addr with
   | some (l, r) =>
     let gl := if l = [] then [] else splitSep ':' l
     let gr := if r = [] then [] else splitSep ':' r
     gl.all hexGroupOk && gr.all hexGroupOk &&
       decide (gl.length + gr.length ≤ 7)
   | none =>
     decide ((splitSep ':' addr).length = 8) &&
       (splitSep ':' addr).all hexGroupOk) &&
  (match g.dropWhile (fun c => c ≠ '/') with
   | [] => true
   | '/' :: ds =>
     decide (1 ≤ ds.length) && ds.all isDigitA && decide (natOfDigits ds ≤ 128) &&
     decide (ipv6ToNat addr % 2 ^ (128 - natOfDigits ds) = 0)
   | _ => false)

/-- geoip.py `parse_ip_line`: `re.findall` with the two patterns, keeping
    the candidates accepted by `ipaddress` (Python collects them into sets;
    the model keeps scan order and deduplicates at aggregation). -/
def parse_ip_line (line : List Char) : List (List Char) × List (List Char) :=
  ((reFindAll matchV4At line).filter pyValidIpv4Network,
   (reFindAll matchV6At line).filter pyValidIpv6Network)

/-- geoip.py `extract_ip_cidrs`, with HTTP fetching abstracted into the
    `fetch` argument: per source, fetched or literal lines pass through
    `remove_comments` and each surviving line through `parse_ip_line`; the
    accumulated family sets come back sorted by `sort_ip_cidrs`. -/
def extract_ip_cidrs (fetch : List Char → List (List Char))
    (urls : List (List Char)) : List (List Char) × List (List Char) :=
  let lines := urls.flatMap (fun u =>
    remove_comments (if ("http".data).isPrefixOf u then fetch u else pySplitlines u))
  (sort_ip_cidrs (lines.flatMap (fun l => (parse_ip_line l).1)).dedup,
   sort_ip_cidrs (lines.flatMap (fun l => (parse_ip_line l).2)).dedup)

/-- The output file extensions written per successful geoip job, in the
    order the write calls appear in the source. -/
def geoipExts : List (List Char) :=
  [".json".data, ".list".data, ".txt".data, ".yaml".data]

/-- Effects of one geoip job: a warning and no writes when both families
    come back empty, otherwise one write per output format (the external
    rule compilers run afterwards and are outside the model). -/
def jobEvents (fetch : List Char → List (List Char))
    (job : List Char × List (List Char)) : List FsEvent :=
  if (extract_ip_cidrs fetch job.2).1 = [] ∧ (extract_ip_cidrs fetch job.2).2 = [] then
    [.warn job.1]
  else geoipExts.map (fun e => .wrote (job.1 ++ e))

/-- geoip.py `process_urls`: each configured job handled in order,
    independently of the others. -/
def process_urls (fetch : List Char → List (List Char))
    (config : List (List Char × List (List Char))) : List FsEvent :=
  config.flatMap (jobEvents fetch)

end Geoip

namespace Generate

/-- generate.py `process_domain_urls` with fetching abstracted to the
    concatenated document lines: classify every line, accumulate the entries
    into the two category sets, return both as sorted lists. -/
def process_domain_content (lines : List (List Char)) :
    List (List Char) × List (List Char) :=
  (List.insertionSort strLeProp (lines.flatMap (fun l =>
      match process_domain_line l with
      | (some .domain, some d) => [d]
      | _ => [])).dedup,
   List.insertionSort strLeProp (lines.flatMap (fun l =>
      match process_domain_line l with
      | (some .suffix, some d) => [d]
      | _ => [])).dedup)

/-- The four files written by the geosite section of generate.py `main`, in
    the order of the write calls. -/
def geositeCdnFiles : List (List Char) :=
  ["rule-set/geosite-cdn.txt".data, "rule-set/geosite-cdn.list".data,
   "rule-set/geosite-cdn.yaml".data, "rule-set/geosite-cdn.json".data]

/-- The four files written by the geoip section of generate.py `main`. -/
def geoipPrivateFiles : List (List Char) :=
  ["rule-set/geoip-private.txt".data, "rule-set/geoip-private.list".data,
   "rule-set/geoip-private.yaml".data, "rule-set/geoip-private.json".data]

/-- Events of the geosite section of generate.py `main`: four writes when
    any entry exists, otherwise a `logging.error` report and no writes. -/
def domainSectionEvents (domain_lines : List (List Char)) : List FsEvent :=
  if (process_domain_content domain_lines).1 = [] ∧
      (process_domain_content domain_lines).2 = [] then
    [.error ("rule-set/geosite-cdn".data)]
  else geositeCdnFiles.map .wrote

/-- Events of the geoip section of generate.py `main`: four writes when any
    CIDR was extracted, otherwise a `logging.error` report and no writes. -/
def ipSectionEvents (ip_lines : List (List Char)) : List FsEvent :=
  if process_ip_content ip_lines = [] then
    [.error ("rule-set/geoip-private".data)]
  else geoipPrivateFiles.map .wrote

/-- generate.py `main`, with the two hardcoded source lists abstracted to
    their fetched line contents: the geosite section runs first and the
    geoip section always follows it, whatever the first produced; the
    external rule compilers invoked at the end are outside the model. -/
def mainEvents (domain_lines ip_lines : List (List Char)) : List FsEvent :=
  domainSectionEvents domain_lines ++ ipSectionEvents ip_lines

end Generate

/-! ### Helper lemmas about the string primitives -/

lemma takeWhile_append_of_all {p : Char → Bool} {l : List Char} (h : ∀ c ∈ l, p c = true)
    {x : Char} (hx : p x = false) (rest : List Char) :
    (l ++ x :: rest).takeWhile p = l := by
  induction l with
  | nil => simp [List.takeWhile_cons, hx]
  | cons a t ih =>
    simp [List.cons_append, List.takeWhile_cons, h a (by simp),
      ih (fun c hc => h c (by simp [hc]))]

lemma dropWhile_append_of_all {p : Char → Bool} {l : List Char} (h : ∀ c ∈ l, p c = true)
    {x : Char} (hx : p x = false) (rest : List Char) :
    (l ++ x :: rest).dropWhile p = x :: rest := by
  induction l with
  | nil => simp [List.dropWhile_cons, hx]
  | cons a t ih =>
    simp only [List.cons_append, List.dropWhile_cons, h a (by simp)]
    exact ih (fun c hc => h c (by simp [hc]))

lemma takeWhile_eq_self_of_all {p : Char → Bool} {l : List Char} (h : ∀ c ∈ l, p c = true) :
    l.takeWhile p = l := by
  induction l with
  | nil => rfl
  | cons a t ih =>
    simp [List.takeWhile_cons, h a (by simp), ih (fun c hc => h c (by simp [hc]))]

lemma dropWhile_eq_nil_of_all {p : Char → Bool} {l : List Char} (h : ∀ c ∈ l, p c = true) :
    l.dropWhile p = [] := by
  induction l with
  | nil => rfl
  | cons a t ih =>
    simp only [List.dropWhile_cons, h a (by simp)]
    exact ih (fun c hc => h c (by simp [hc]))

lemma dropWhile_eq_self_of_all {p : Char → Bool} {l : List Char} (h : ∀ c ∈ l, p c = false) :
    l.dropWhile p = l := by
  cases l with
  | nil => rfl
  | cons a t => simp [List.dropWhile_cons, h a (by simp)]

lemma dropWhile_eq_self_of_head {p : Char → Bool} {l : List Char}
    (h : ∀ c, l.head? = some c → p c = false) : l.dropWhile p = l := by
  cases l with
  | nil => rfl
  | cons a t => simp [List.dropWhile_cons, h a rfl]

lemma dropWhile_append_cons {p : Char → Bool} (a : List Char) {cc : Char}
    (hcc : p cc = false) (c : List Char) :
    (a ++ cc :: c).dropWhile p = a.dropWhile p ++ cc :: c := by
  induction a with
  | nil => simp [List.dropWhile_cons, hcc]
  | cons x t ih =>
    simp only [List.cons_append, List.dropWhile_cons]
    cases hpx : p x <;> simp [ih]

lemma mem_pyStrip {c : Char} {l : List Char} (h : c ∈ pyStrip l) : c ∈ l := by
  unfold pyStrip at h
  rw [List.mem_reverse] at h
  have h2 := (List.dropWhile_sublist _).mem h
  rw [List.mem_reverse] at h2
  exact (List.dropWhile_sublist _).mem h2

lemma pyStrip_eq_self_of_all {l : List Char} (h : ∀ c ∈ l, isPySpace c = false) :
    pyStrip l = l := by
  unfold pyStrip
  rw [dropWhile_eq_self_of_all h,
    dropWhile_eq_self_of_all (fun c hc => h c (List.mem_reverse.mp hc)),
    List.reverse_reverse]

lemma pyStrip_eq_self_of_ends {l : List Char}
    (hh : ∀ c, l.head? = some c → isPySpace c = false)
    (hl : ∀ c, l.getLast? = some c → isPySpace c = false) : pyStrip l = l := by
  unfold pyStrip
  rw [dropWhile_eq_self_of_head hh,
    dropWhile_eq_self_of_head (fun c hc => hl c (by rwa [List.head?_reverse] at hc)),
    List.reverse_reverse]

lemma pyStrip_nil : pyStrip [] = [] := rfl

lemma beforeComment_eq_self_of_all {l : List Char} (h : ∀ c ∈ l, isCommentChar c = false) :
    beforeComment l = l :=
  takeWhile_eq_self_of_all (fun c hc => by simp [h c hc])

/-! ### Character class facts -/



lemma labelChar_not_space {c : Char} (h : isLabelChar c = true) : isPySpace c = false := by
  simp only [isPySpace, Bool.or_eq_false_iff, decide_eq_false_iff_not]
  and_intros <;> (rintro rfl; exact absurd h (by decide))

lemma labelChar_not_comment {c : Char} (h : isLabelChar c = true) : isCommentChar c = false := by
  simp only [isCommentChar, Bool.or_eq_false_iff, decide_eq_false_iff_not]
  and_intros <;> (rintro rfl; exact absurd h (by decide))

lemma labelChar_ne {c : Char} (h : isLabelChar c = true) :
    c ≠ ',' ∧ c ≠ '\n' ∧ c ≠ '+' ∧ c ≠ '.' ∧ c ≠ '/' := by
  and_intros <;> (rintro rfl; exact absurd h (by decide))

lemma ipChar_not_space {c : Char} (h : isIpChar c = true) : isPySpace c = false := by
  simp only [isPySpace, Bool.or_eq_false_iff, decide_eq_false_iff_not]
  and_intros <;> (rintro rfl; exact absurd h (by decide))

lemma ipChar_not_comment {c : Char} (h : isIpChar c = true) : isCommentChar c = false := by
  simp only [isCommentChar, Bool.or_eq_false_iff, decide_eq_false_iff_not]
  and_intros <;> (rintro rfl; exact absurd h (by decide))

lemma ipChar_not_sep {c : Char} (h : isIpChar c = true) : Generate.isSepChar c = false := by
  simp only [Generate.isSepChar, Bool.or_eq_false_iff, decide_eq_false_iff_not]
  exact ⟨fun heq => absurd h (by subst heq; decide), ipChar_not_space h⟩

lemma ipChar_ne_I {c : Char} (h : isIpChar c = true) : c ≠ 'I' := by
  rintro rfl; exact absurd h (by decide)

lemma digit_isIpChar {c : Char} (h : isDigitA c = true) : isIpChar c = true := by
  simp [isIpChar, isHexA, h]

lemma hex_isIpChar {c : Char} (h : isHexA c = true) : isIpChar c = true := by
  simp [isIpChar, h]

/-! ### Structure of valid domains -/

lemma alnum_isLabelChar {c : Char} (h : isAlnumA c = true) : isLabelChar c = true := by
  simp [isLabelChar, h]

lemma alpha_isAlnum {c : Char} (h : isAlphaA c = true) : isAlnumA c = true := by
  simp [isAlnumA, h]

lemma validLabelAux_chars {l : List Char} (h : validLabelAux l = true) :
    ∀ c ∈ l, isLabelChar c = true := by
  induction l with
  | nil => simp
  | cons a t ih =>
    cases t with
    | nil =>
      intro c hc
      simp only [List.mem_singleton] at hc
      subst hc
      exact alnum_isLabelChar (by simpa [validLabelAux] using h)
    | cons b t2 =>
      simp only [validLabelAux, Bool.and_eq_true] at h
      intro c hc
      rcases List.mem_cons.mp hc with rfl | hc2
      · exact h.1
      · exact ih (by simp [validLabelAux, h.2]) c hc2

lemma validLabel_chars {l : List Char} (h : validLabel l = true) :
    ∀ c ∈ l, isLabelChar c = true := by
  cases l with
  | nil => simp
  | cons a rest =>
    simp only [validLabel, Bool.and_eq_true] at h
    intro c hc
    rcases List.mem_cons.mp hc with rfl | hc2
    · exact alnum_isLabelChar h.1.1
    · exact validLabelAux_chars h.2 c hc2

lemma validTld_chars {l : List Char} (h : validTld l = true) :
    ∀ c ∈ l, isLabelChar c = true := by
  simp only [validTld, Bool.and_eq_true, List.all_eq_true] at h
  exact fun c hc => alnum_isLabelChar (alpha_isAlnum (h.2 c hc))

lemma domainAux_chars : ∀ (l acc : List Char), domainAux acc l = true →
    (∀ c ∈ acc, isLabelChar c = true) ∧ (∀ c ∈ l, isLabelChar c = true ∨ c = '.') := by
  intro l
  induction l with
  | nil =>
    intro acc h
    exact ⟨validTld_chars (by simpa [domainAux] using h), by simp⟩
  | cons a t ih =>
    intro acc h
    rw [domainAux] at h
    by_cases ha : a = '.'
    · rw [if_pos ha, Bool.and_eq_true] at h
      refine ⟨validLabel_chars h.1, ?_⟩
      intro c hc
      rcases List.mem_cons.mp hc with rfl | hc2
      · exact Or.inr ha
      · exact (ih [] h.2).2 c hc2
    · rw [if_neg ha] at h
      have h2 := ih (acc ++ [a]) h
      refine ⟨fun c hc => h2.1 c (by simp [hc]), ?_⟩
      intro c hc
      rcases List.mem_cons.mp hc with rfl | hc2
      · exact Or.inl (h2.1 c (by simp))
      · exact h2.2 c hc2

lemma is_valid_domain_chars {l : List Char} (h : is_valid_domain l = true) :
    ∀ c ∈ l, isLabelChar c = true ∨ c = '.' := by
  simp only [is_valid_domain, Bool.and_eq_true] at h
  exact (domainAux_chars l [] h.1).2

lemma domainAux_acc_head : ∀ (l acc' : List Char) (a : Char),
    domainAux (a :: acc') l = true → isAlnumA a = true := by
  intro l
  induction l with
  | nil =>
    intro acc' a h
    have h2 : validTld (a :: acc') = true := by simpa [domainAux] using h
    simp only [validTld, Bool.and_eq_true, List.all_eq_true] at h2
    exact alpha_isAlnum (h2.2 a (by simp))
  | cons c t ih =>
    intro acc' a h
    rw [domainAux] at h
    by_cases hc : c = '.'
    · rw [if_pos hc, Bool.and_eq_true] at h
      have h2 := h.1
      simp only [validLabel, Bool.and_eq_true] at h2
      exact h2.1.1
    · rw [if_neg hc] at h
      exact ih (acc' ++ [c]) a (by simpa using h)

lemma is_valid_domain_head {l : List Char} (h : is_valid_domain l = true) :
    ∃ a t, l = a :: t ∧ isAlnumA a = true := by
  cases l with
  | nil => exact absurd h (by decide)
  | cons a t =>
    refine ⟨a, t, rfl, ?_⟩
    simp only [is_valid_domain, Bool.and_eq_true] at h
    have h1 := h.1
    rw [domainAux] at h1
    by_cases ha : a = '.'
    · rw [if_pos ha, Bool.and_eq_true] at h1
      exact absurd h1.1 (by decide)
    · rw [if_neg ha] at h1
      exact domainAux_acc_head t [] a (by simpa using h1)

lemma is_valid_domain_ne_nil {l : List Char} (h : is_valid_domain l = true) : l ≠ [] := by
  obtain ⟨a, t, rfl, -⟩ := is_valid_domain_head h
  simp

lemma not_valid_of_mem {l : List Char} {c : Char} (hc : c ∈ l)
    (h1 : isLabelChar c = false) (h2 : c ≠ '.') : is_valid_domain l = false := by
  cases hval : is_valid_domain l
  · rfl
  · rcases is_valid_domain_chars hval c hc with h | h
    · rw [h1] at h
      exact absurd h (by simp)
    · exact absurd h h2

lemma validDomain_not_space {l : List Char} (h : is_valid_domain l = true) :
    ∀ c ∈ l, isPySpace c = false := by
  intro c hc
  rcases is_valid_domain_chars h c hc with h2 | rfl
  · exact labelChar_not_space h2
  · decide

lemma validDomain_not_comment {l : List Char} (h : is_valid_domain l = true) :
    ∀ c ∈ l, isCommentChar c = false := by
  intro c hc
  rcases is_valid_domain_chars h c hc with h2 | rfl
  · exact labelChar_not_comment h2
  · decide

/-! ### Evaluation of the classifier branches -/

lemma if_pos_bool {α : Sort _} {b : Bool} (h : b = true) {x y : α} :
    (if b = true then x else y) = x := by simp [h]

lemma if_neg_bool {α : Sort _} {b : Bool} (h : b = false) {x y : α} :
    (if b = true then x else y) = y := by simp [h]

lemma bool_ne_true {b : Bool} (h : b = false) : ¬ (b = true) := by simp [h]

lemma isPrefixOf_append_self (a b : List Char) : a.isPrefixOf (a ++ b) = true :=
  List.isPrefixOf_iff_prefix.mpr ⟨b, rfl⟩



lemma Storable.last_not_space {v : List Char} (hv : Storable v) :
    ∀ c, v.getLast? = some c → isPySpace c = false := by
  intro c hc
  have h := hv.2.2
  rw [List.getLastD_eq_getLast?, hc] at h
  exact h

lemma validDomain_clean {s : List Char} (h : is_valid_domain s = true) : CleanVal s :=
  fun c hc => ⟨validDomain_not_space h c hc, validDomain_not_comment h c hc⟩

lemma validDomain_not_nl {s : List Char} (h : is_valid_domain s = true) : '\n' ∉ s := by
  intro hm
  rcases is_valid_domain_chars h '\n' hm with h2 | h2
  · exact absurd h2 (by decide)
  · exact absurd h2 (by decide)

lemma validDomain_storable {s : List Char} (h : is_valid_domain s = true) : Storable s := by
  refine ⟨is_valid_domain_ne_nil h, validDomain_not_nl h, ?_⟩
  cases hg : s.getLast? with
  | none => exact absurd (List.getLast?_eq_none_iff.mp hg) (is_valid_domain_ne_nil h)
  | some c =>
    rw [List.getLastD_eq_getLast?, hg]
    exact validDomain_not_space h c (List.mem_of_mem_getLast? hg)

lemma gen_pdl_domain (v : List Char) (hv : CleanVal v) :
    Generate.process_domain_line ("DOMAIN,".data ++ v) =
      (some .domain, if is_valid_domain v then some v else none) := by
  have hs : pyStrip ("DOMAIN,".data ++ v) = "DOMAIN,".data ++ v := by
    apply pyStrip_eq_self_of_all
    intro c hc
    rcases List.mem_append.mp hc with h | h
    · exact (show ∀ c ∈ "DOMAIN,".data, isPySpace c = false by decide) c h
    · exact (hv c h).1
  have hb : beforeComment ("DOMAIN,".data ++ v) = "DOMAIN,".data ++ v := by
    apply beforeComment_eq_self_of_all
    intro c hc
    rcases List.mem_append.mp hc with h | h
    · exact (show ∀ c ∈ "DOMAIN,".data, isCommentChar c = false by decide) c h
    · exact (hv c h).2
  have hvs : pyStrip v = v := pyStrip_eq_self_of_all (fun c hc => (hv c hc).1)
  simp only [Generate.process_domain_line]
  rw [hs, hb, hs]
  rw [if_neg (by simp : ¬("DOMAIN,".data ++ v = []))]
  rw [if_pos_bool (isPrefixOf_append_self _ _)]
  rw [show ("DOMAIN,".data ++ v).drop 7 = v from rfl, hvs]

lemma gen_pdl_suffix (v : List Char) (hv : CleanVal v) :
    Generate.process_domain_line ("DOMAIN-SUFFIX,".data ++ v) =
      (some .suffix, if is_valid_domain v then some v else none) := by
  have hs : pyStrip ("DOMAIN-SUFFIX,".data ++ v) = "DOMAIN-SUFFIX,".data ++ v := by
    apply pyStrip_eq_self_of_all
    intro c hc
    rcases List.mem_append.mp hc with h | h
    · exact (show ∀ c ∈ "DOMAIN-SUFFIX,".data, isPySpace c = false by decide) c h
    · exact (hv c h).1
  have hb : beforeComment ("DOMAIN-SUFFIX,".data ++ v) = "DOMAIN-SUFFIX,".data ++ v := by
    apply beforeComment_eq_self_of_all
    intro c hc
    rcases List.mem_append.mp hc with h | h
    · exact (show ∀ c ∈ "DOMAIN-SUFFIX,".data, isCommentChar c = false by decide) c h
    · exact (hv c h).2
  have hvs : pyStrip v = v := pyStrip_eq_self_of_all (fun c hc => (hv c hc).1)
  simp only [Generate.process_domain_line]
  rw [hs, hb, hs]
  rw [if_neg (by simp : ¬("DOMAIN-SUFFIX,".data ++ v = []))]
  rw [if_neg_bool (show ("DOMAIN,".data).isPrefixOf ("DOMAIN-SUFFIX,".data ++ v) = false
    from rfl)]
  rw [if_pos_bool (isPrefixOf_append_self _ _)]
  rw [show ("DOMAIN-SUFFIX,".data ++ v).drop 14 = v from rfl, hvs]

lemma gen_pdl_dot (s : List Char) (hval : is_valid_domain s = true) :
    Generate.process_domain_line ('.' :: s) = (some .suffix, some s) := by
  obtain ⟨a, t, rfl, ha⟩ := is_valid_domain_head hval
  have hs : pyStrip ('.' :: a :: t) = '.' :: a :: t := by
    apply pyStrip_eq_self_of_all
    intro c hc
    rcases List.mem_cons.mp hc with rfl | hc2
    · decide
    · exact validDomain_not_space hval c hc2
  have hb : beforeComment ('.' :: a :: t) = '.' :: a :: t := by
    apply beforeComment_eq_self_of_all
    intro c hc
    rcases List.mem_cons.mp hc with rfl | hc2
    · decide
    · exact validDomain_not_comment hval c hc2
  have hane : a ≠ '.' := (labelChar_ne (alnum_isLabelChar ha)).2.2.2.1
  simp only [Generate.process_domain_line]
  rw [hs, hb, hs]
  rw [if_neg (by simp : ¬(('.' :: a :: t : List Char) = []))]
  rw [if_neg_bool (show ("DOMAIN,".data).isPrefixOf ('.' :: a :: t) = false from rfl)]
  rw [if_neg_bool (show ("DOMAIN-SUFFIX,".data).isPrefixOf ('.' :: a :: t) = false from rfl)]
  rw [if_pos (show ('.' :: a :: t : List Char).head? = some '.' from rfl)]
  have hdrop : ('.' :: a :: t : List Char).dropWhile (fun c => c = '.') = a :: t := by
    rw [List.dropWhile_cons]
    simp only [decide_eq_true_eq, if_pos rfl]
    rw [List.dropWhile_cons]
    simp [hane]
  rw [hdrop, if_pos_bool hval]

lemma gen_pdl_plus (s : List Char) (hval : is_valid_domain s = true) :
    Generate.process_domain_line ('+' :: '.' :: s) = (none, none) := by
  have hs : pyStrip ('+' :: '.' :: s) = '+' :: '.' :: s := by
    apply pyStrip_eq_self_of_all
    intro c hc
    rcases List.mem_cons.mp hc with rfl | hc2
    · decide
    · rcases List.mem_cons.mp hc2 with rfl | hc3
      · decide
      · exact validDomain_not_space hval c hc3
  have hb : beforeComment ('+' :: '.' :: s) = '+' :: '.' :: s := by
    apply beforeComment_eq_self_of_all
    intro c hc
    rcases List.mem_cons.mp hc with rfl | hc2
    · decide
    · rcases List.mem_cons.mp hc2 with rfl | hc3
      · decide
      · exact validDomain_not_comment hval c hc3
  have hinval : is_valid_domain ('+' :: '.' :: s) = false :=
    not_valid_of_mem (show ('+' : Char) ∈ '+' :: '.' :: s by simp) (by decide) (by decide)
  simp only [Generate.process_domain_line]
  rw [hs, hb, hs]
  rw [if_neg (by simp : ¬(('+' :: '.' :: s : List Char) = []))]
  rw [if_neg_bool (show ("DOMAIN,".data).isPrefixOf ('+' :: '.' :: s) = false from rfl)]
  rw [if_neg_bool (show ("DOMAIN-SUFFIX,".data).isPrefixOf ('+' :: '.' :: s) = false from rfl)]
  rw [if_neg (by simp : ¬(('+' :: '.' :: s : List Char).head? = some '.'))]
  rw [if_neg_bool hinval]

lemma geo_strip_tagged (tag v : List Char) (hv : Storable v) (htagne : tag ≠ [])
    (htag : ∀ c, tag.head? = some c → isPySpace c = false) :
    pyStrip (tag ++ v) = tag ++ v := by
  apply pyStrip_eq_self_of_ends
  · intro c hc
    cases tag with
    | nil => exact absurd rfl htagne
    | cons a t => exact htag c (by simpa using hc)
  · intro c hc
    rw [List.getLast?_append_of_ne_nil _ hv.1] at hc
    exact hv.last_not_space c hc

lemma not_valid_DOMAIN_tag (v : List Char) :
    is_valid_domain ("DOMAIN,".data ++ v) = false :=
  not_valid_of_mem (show (',' : Char) ∈ "DOMAIN,".data ++ v by
    exact List.mem_append.mpr (Or.inl (by decide))) (by decide) (by decide)

lemma not_valid_SUFFIX_tag (v : List Char) :
    is_valid_domain ("DOMAIN-SUFFIX,".data ++ v) = false :=
  not_valid_of_mem (show (',' : Char) ∈ "DOMAIN-SUFFIX,".data ++ v by
    exact List.mem_append.mpr (Or.inl (by decide))) (by decide) (by decide)

lemma geo_pdl_domain (v : List Char) (hv : Storable v) :
    Geosite.parse_domain_line ("DOMAIN,".data ++ v) = ([v], []) := by
  have hs := geo_strip_tagged ("DOMAIN,".data) v hv (by decide) (by decide)
  simp only [Geosite.parse_domain_line]
  rw [hs]
  rw [if_neg_bool (not_valid_DOMAIN_tag v)]
  rw [if_neg_bool (show ((("DOMAIN,".data ++ v).head? = some '.' : Bool) ||
    ("+.".data).isPrefixOf ("DOMAIN,".data ++ v)) = false from rfl)]
  rw [if_pos ⟨isPrefixOf_append_self _ _,
    by rw [show ("DOMAIN,".data ++ v).drop 7 = v from rfl]; exact hv.1,
    by rw [show ("DOMAIN,".data ++ v).drop 7 = v from rfl]; exact hv.2.1⟩]
  rw [show ("DOMAIN,".data ++ v).drop 7 = v from rfl]

lemma geo_pdl_suffix (v : List Char) (hv : Storable v) :
    Geosite.parse_domain_line ("DOMAIN-SUFFIX,".data ++ v) = ([], [v]) := by
  have hs := geo_strip_tagged ("DOMAIN-SUFFIX,".data) v hv (by decide) (by decide)
  simp only [Geosite.parse_domain_line]
  rw [hs]
  rw [if_neg_bool (not_valid_SUFFIX_tag v)]
  rw [if_neg_bool (show ((("DOMAIN-SUFFIX,".data ++ v).head? = some '.' : Bool) ||
    ("+.".data).isPrefixOf ("DOMAIN-SUFFIX,".data ++ v)) = false from rfl)]
  rw [if_neg (fun h => bool_ne_true
    (show ("DOMAIN,".data).isPrefixOf ("DOMAIN-SUFFIX,".data ++ v) = false from rfl) h.1)]
  rw [if_pos ⟨isPrefixOf_append_self _ _,
    by rw [show ("DOMAIN-SUFFIX,".data ++ v).drop 14 = v from rfl]; exact hv.1,
    by rw [show ("DOMAIN-SUFFIX,".data ++ v).drop 14 = v from rfl]; exact hv.2.1⟩]
  rw [show ("DOMAIN-SUFFIX,".data ++ v).drop 14 = v from rfl]

lemma geo_pdl_dot (s : List Char) (hval : is_valid_domain s = true) :
    Geosite.parse_domain_line ('.' :: s) = ([], [s]) := by
  obtain ⟨a, t, rfl, ha⟩ := is_valid_domain_head hval
  have hs : pyStrip ('.' :: a :: t) = '.' :: a :: t := by
    apply pyStrip_eq_self_of_all
    intro c hc
    rcases List.mem_cons.mp hc with rfl | hc2
    · decide
    · exact validDomain_not_space hval c hc2
  have hinval : is_valid_domain ('.' :: a :: t) = false := by
    simp [is_valid_domain, domainAux, validLabel]
  have hane : a ≠ '.' := (labelChar_ne (alnum_isLabelChar ha)).2.2.2.1
  have hanep : a ≠ '+' := (labelChar_ne (alnum_isLabelChar ha)).2.2.1
  simp only [Geosite.parse_domain_line]
  rw [hs]
  rw [if_neg_bool hinval]
  rw [if_pos_bool (show ((('.' :: a :: t : List Char).head? = some '.' : Bool) ||
    ("+.".data).isPrefixOf ('.' :: a :: t)) = true from by simp)]
  have hdrop : ('.' :: a :: t : List Char).dropWhile (fun c => c = '.' || c = '+') = a :: t := by
    rw [List.dropWhile_cons]
    simp only [show (('.' : Char) = '.' || ('.' : Char) = '+') = true from by decide, if_pos]
    rw [List.dropWhile_cons]
    simp [hane, hanep]
  rw [hdrop]

lemma geo_pdl_plusdot (s : List Char) (hval : is_valid_domain s = true) :
    Geosite.parse_domain_line ('+' :: '.' :: s) = ([], [s]) := by
  obtain ⟨a, t, hst, ha⟩ := is_valid_domain_head hval
  have hs : pyStrip ('+' :: '.' :: s) = '+' :: '.' :: s := by
    apply pyStrip_eq_self_of_all
    intro c hc
    rcases List.mem_cons.mp hc with rfl | hc2
    · decide
    · rcases List.mem_cons.mp hc2 with rfl | hc3
      · decide
      · exact validDomain_not_space hval c hc3
  have hinval : is_valid_domain ('+' :: '.' :: s) = false :=
    not_valid_of_mem (show ('+' : Char) ∈ '+' :: '.' :: s by simp) (by decide) (by decide)
  have hane : a ≠ '.' := (labelChar_ne (alnum_isLabelChar ha)).2.2.2.1
  have hanep : a ≠ '+' := (labelChar_ne (alnum_isLabelChar ha)).2.2.1
  simp only [Geosite.parse_domain_line]
  rw [hs]
  rw [if_neg_bool hinval]
  rw [if_pos_bool (show ((('+' :: '.' :: s : List Char).head? = some '.' : Bool) ||
    ("+.".data).isPrefixOf ('+' :: '.' :: s)) = true from by
      subst hst; rfl)]
  have hdrop : ('+' :: '.' :: s : List Char).dropWhile (fun c => c = '.' || c = '+') = s := by
    subst hst
    rw [List.dropWhile_cons]
    simp only [show (('+' : Char) = '.' || ('+' : Char) = '+') = true from by decide, if_pos]
    rw [List.dropWhile_cons]
    simp only [show (('.' : Char) = '.' || ('.' : Char) = '+') = true from by decide, if_pos]
    rw [List.dropWhile_cons]
    simp [hane, hanep]
  rw [hdrop]

/-! ### Claim C1 -/

/-- C1, counterexample: the claim says a `DOMAIN-SUFFIX,` line is classified
    as DomainSuffix only if the value passes domain validation, but
    geosite.py `parse_domain_line` stores the value of a
    `DOMAIN-SUFFIX,` line without any validation: on `DOMAIN-SUFFIX,!!!` it
    returns the suffix `!!!` although `is_valid_domain` rejects it. -/
theorem c1_counterexample :
    Geosite.parse_domain_line ("DOMAIN-SUFFIX,!!!".data) = ([], ["!!!".data]) ∧
      is_valid_domain ("!!!".data) = false := by
  constructor
  · rfl
  · decide

/-- C1, amended: generate.py `process_domain_line` classifies
    `DOMAIN,v` as a domain entry exactly when `v` passes `is_valid_domain`
    (returning no value otherwise), and `DOMAIN-SUFFIX,v` likewise; but
    geosite.py `parse_domain_line` stores the value of such lines with no
    validation at all. -/
theorem c1_domain_line_validation (v : List Char) (hv : CleanVal v) :
    Generate.process_domain_line ("DOMAIN,".data ++ v) =
      (some .domain, if is_valid_domain v then some v else none) ∧
    Generate.process_domain_line ("DOMAIN-SUFFIX,".data ++ v) =
      (some .suffix, if is_valid_domain v then some v else none) ∧
    (Storable v →
      Geosite.parse_domain_line ("DOMAIN,".data ++ v) = ([v], []) ∧
      Geosite.parse_domain_line ("DOMAIN-SUFFIX,".data ++ v) = ([], [v])) :=
  ⟨gen_pdl_domain v hv, gen_pdl_suffix v hv,
   fun hs => ⟨geo_pdl_domain v hs, geo_pdl_suffix v hs⟩⟩

/-- C1, witness: the amended theorem applied to the invalid value `!!!`. -/
theorem c1_witness :
    CleanVal ("!!!".data) ∧
    (Generate.process_domain_line ("DOMAIN,".data ++ "!!!".data) =
      (some .domain, if is_valid_domain ("!!!".data) then some ("!!!".data) else none) ∧
    Generate.process_domain_line ("DOMAIN-SUFFIX,".data ++ "!!!".data) =
      (some .suffix, if is_valid_domain ("!!!".data) then some ("!!!".data) else none) ∧
    (Storable ("!!!".data) →
      Geosite.parse_domain_line ("DOMAIN,".data ++ "!!!".data) = (["!!!".data], []) ∧
      Geosite.parse_domain_line ("DOMAIN-SUFFIX,".data ++ "!!!".data) = ([], ["!!!".data]))) :=
  ⟨by decide, c1_domain_line_validation ("!!!".data) (by decide)⟩

/-! ### Claim C8 -/

/-- C8, counterexample: for the valid suffix `example.com`, generate.py
    classifies `.example.com` as DomainSuffix(example.com) but classifies
    `+.example.com` as unrecognized (it has no `+.` branch), so the three
    spellings do not all agree as the claim states. -/
theorem c8_counterexample :
    is_valid_domain ("example.com".data) = true ∧
    Generate.process_domain_line ("+.example.com".data) = (none, none) ∧
    Generate.process_domain_line (".example.com".data) =
      (some .suffix, some ("example.com".data)) := by
  refine ⟨by decide, ?_, ?_⟩ <;> decide

/-- C8, amended: for every valid suffix `s`, geosite.py classifies `.s`,
    `+.s` and `DOMAIN-SUFFIX,s` identically as DomainSuffix(s) with the
    leading marker stripped, and generate.py does so for `.s` and
    `DOMAIN-SUFFIX,s`, but classifies `+.s` as unrecognized. -/
theorem c8_suffix_forms (s : List Char) (hval : is_valid_domain s = true) :
    Geosite.parse_domain_line ('.' :: s) = ([], [s]) ∧
    Geosite.parse_domain_line ('+' :: '.' :: s) = ([], [s]) ∧
    Geosite.parse_domain_line ("DOMAIN-SUFFIX,".data ++ s) = ([], [s]) ∧
    Generate.process_domain_line ('.' :: s) = (some .suffix, some s) ∧
    Generate.process_domain_line ("DOMAIN-SUFFIX,".data ++ s) = (some .suffix, some s) ∧
    Generate.process_domain_line ('+' :: '.' :: s) = (none, none) := by
  refine ⟨geo_pdl_dot s hval, geo_pdl_plusdot s hval,
    geo_pdl_suffix s (validDomain_storable hval), gen_pdl_dot s hval, ?_,
    gen_pdl_plus s hval⟩
  rw [gen_pdl_suffix s (validDomain_clean hval), if_pos_bool hval]

/-- C8, witness: the amended theorem applied to the suffix `example.com`. -/
theorem c8_witness :
    is_valid_domain ("example.com".data) = true ∧
    (Geosite.parse_domain_line ('.' :: "example.com".data) = ([], ["example.com".data]) ∧
    Geosite.parse_domain_line ('+' :: '.' :: "example.com".data) = ([], ["example.com".data]) ∧
    Geosite.parse_domain_line ("DOMAIN-SUFFIX,".data ++ "example.com".data) =
      ([], ["example.com".data]) ∧
    Generate.process_domain_line ('.' :: "example.com".data) =
      (some .suffix, some ("example.com".data)) ∧
    Generate.process_domain_line ("DOMAIN-SUFFIX,".data ++ "example.com".data) =
      (some .suffix, some ("example.com".data)) ∧
    Generate.process_domain_line ('+' :: '.' :: "example.com".data) = (none, none)) :=
  ⟨by decide, c8_suffix_forms ("example.com".data) (by decide)⟩

/-! ### Claim C10 -/

lemma cleanVal_append_comma {v w : List Char} (hv : CleanVal v) (hw : CleanVal w) :
    CleanVal (v ++ ',' :: w) := by
  intro c hc
  rcases List.mem_append.mp hc with h | h
  · exact hv c h
  · rcases List.mem_cons.mp h with rfl | h2
    · exact ⟨by decide, by decide⟩
    · exact hw c h2

lemma storable_append_comma {v w : List Char} (hv : CleanVal v) (hw : CleanVal w) :
    Storable (v ++ ',' :: w) := by
  refine ⟨by simp, ?_, ?_⟩
  · intro hmem
    rcases List.mem_append.mp hmem with h | h
    · exact absurd (hv '\n' h).1 (by decide)
    · rcases List.mem_cons.mp h with h2 | h2
      · exact absurd h2 (by decide)
      · exact absurd (hw '\n' h2).1 (by decide)
  · rw [List.getLastD_eq_getLast?, List.getLast?_append_of_ne_nil _ (by simp : (',' :: w : List Char) ≠ [])]
    cases w with
    | nil => decide
    | cons a t =>
      rw [List.getLast?_cons_cons]
      cases hg : (a :: t).getLast? with
      | none => simp at hg
      | some z =>
        simp only [Option.getD_some]
        exact (hw z (List.mem_of_mem_getLast? hg)).1

/-- C10: for every `DOMAIN,` or `DOMAIN-SUFFIX,` line whose remainder carries
    a second comma-separated field (value `v`, extra field `w`, both free of
    whitespace and comment characters), geosite.py stores the entire
    remainder `v ++ , :: w` as the entry value, embedded comma and policy
    text included, while generate.py classifies the tag but yields no entry
    (the Python pair with value None), because the remainder fails domain
    validation. -/
theorem c10_extra_field (v w : List Char) (hv : CleanVal v) (hw : CleanVal w) :
    Geosite.parse_domain_line ("DOMAIN,".data ++ (v ++ ',' :: w)) =
      ([v ++ ',' :: w], []) ∧
    Geosite.parse_domain_line ("DOMAIN-SUFFIX,".data ++ (v ++ ',' :: w)) =
      ([], [v ++ ',' :: w]) ∧
    Generate.process_domain_line ("DOMAIN,".data ++ (v ++ ',' :: w)) =
      (some .domain, none) ∧
    Generate.process_domain_line ("DOMAIN-SUFFIX,".data ++ (v ++ ',' :: w)) =
      (some .suffix, none) ∧
    is_valid_domain (v ++ ',' :: w) = false := by
  have hst := storable_append_comma hv hw
  have hcl := cleanVal_append_comma hv hw
  have hinval : is_valid_domain (v ++ ',' :: w) = false :=
    not_valid_of_mem (show (',' : Char) ∈ v ++ ',' :: w by simp) (by decide) (by decide)
  refine ⟨geo_pdl_domain _ hst, geo_pdl_suffix _ hst, ?_, ?_, hinval⟩
  · rw [gen_pdl_domain _ hcl, if_neg_bool hinval]
  · rw [gen_pdl_suffix _ hcl, if_neg_bool hinval]

/-- C10, witness: the theorem applied to the line `DOMAIN,example.com,Proxy`
    and its `DOMAIN-SUFFIX,` counterpart. -/
theorem c10_extra_field_witness :
    CleanVal ("example.com".data) ∧ CleanVal ("Proxy".data) ∧
    (Geosite.parse_domain_line
        ("DOMAIN,".data ++ ("example.com".data ++ ',' :: "Proxy".data)) =
      (["example.com".data ++ ',' :: "Proxy".data], []) ∧
    Geosite.parse_domain_line
        ("DOMAIN-SUFFIX,".data ++ ("example.com".data ++ ',' :: "Proxy".data)) =
      ([], ["example.com".data ++ ',' :: "Proxy".data]) ∧
    Generate.process_domain_line
        ("DOMAIN,".data ++ ("example.com".data ++ ',' :: "Proxy".data)) =
      (some .domain, none) ∧
    Generate.process_domain_line
        ("DOMAIN-SUFFIX,".data ++ ("example.com".data ++ ',' :: "Proxy".data)) =
      (some .suffix, none) ∧
    is_valid_domain ("example.com".data ++ ',' :: "Proxy".data) = false) :=
  ⟨by decide, by decide,
   c10_extra_field ("example.com".data) ("Proxy".data) (by decide) (by decide)⟩

/-! ### Comment stripping interacts with whitespace stripping -/

lemma head?_dropWhile_false {p : Char → Bool} :
    ∀ {l : List Char} {c : Char}, (l.dropWhile p).head? = some c → p c = false := by
  intro l
  induction l with
  | nil => intro c h; simp at h
  | cons a t ih =>
    intro c h
    rw [List.dropWhile_cons] at h
    by_cases hp : p a = true
    · rw [if_pos hp] at h
      exact ih h
    · rw [if_neg hp] at h
      simp only [List.head?_cons, Option.some.injEq] at h
      subst h
      exact Bool.eq_false_iff.mpr hp

lemma dropWhile_idem {p : Char → Bool} (l : List Char) :
    (l.dropWhile p).dropWhile p = l.dropWhile p :=
  dropWhile_eq_self_of_head (fun _ hc => head?_dropWhile_false hc)

lemma head?_of_prefix_rel {a b : List Char} {c : Char} (h : a <+: b) (hc : a.head? = some c) :
    b.head? = some c := by
  obtain ⟨t, rfl⟩ := h
  cases a with
  | nil => simp at hc
  | cons x u => simpa using hc

lemma commentChar_not_space {c : Char} (h : isCommentChar c = true) : isPySpace c = false := by
  simp only [isCommentChar, Bool.or_eq_true, decide_eq_true_eq] at h
  rcases h with rfl | rfl <;> decide

/-- Stripping a string whose leading whitespace is already gone equals
    stripping its full strip: both are the strip of the original. -/
lemma pyStrip_dropWhile (line : List Char) :
    pyStrip (line.dropWhile isPySpace) = pyStrip (pyStrip line) := by
  set a := line.dropWhile isPySpace with ha
  have h1 : pyStrip a = (a.reverse.dropWhile isPySpace).reverse := by
    unfold pyStrip
    rw [dropWhile_idem]
  set b := (a.reverse.dropWhile isPySpace).reverse with hb
  have h2 : pyStrip line = b := by
    unfold pyStrip
    rw [← ha, hb]
  rw [h1, h2]
  have hsuf : a.reverse.dropWhile isPySpace <:+ a.reverse :=
    ⟨a.reverse.takeWhile isPySpace, List.takeWhile_append_dropWhile _ _⟩
  have hbpre : b <+: a := by
    have := List.reverse_prefix.mpr hsuf
    rwa [List.reverse_reverse, ← hb] at this
  symm
  apply pyStrip_eq_self_of_ends
  · intro c hc
    exact head?_dropWhile_false (l := line) (head?_of_prefix_rel hbpre hc)
  · intro c hc
    rw [hb, List.getLast?_reverse] at hc
    exact head?_dropWhile_false hc

/-- Appending a comment to a comment-free line does not change the text seen
    by the classifiers after strip / comment-cut / strip. -/
lemma stripCommentStrip_append (line c : List Char) {cmt : Char}
    (hl : ∀ ch ∈ line, isCommentChar ch = false) (hcmt : isCommentChar cmt = true) :
    pyStrip (beforeComment (pyStrip (line ++ cmt :: c))) =
      pyStrip (beforeComment (pyStrip line)) := by
  have hcs : isPySpace cmt = false := commentChar_not_space hcmt
  set a := line.dropWhile isPySpace with ha
  have hstep1 : pyStrip (line ++ cmt :: c) =
      a ++ cmt :: (c.reverse.dropWhile isPySpace).reverse := by
    unfold pyStrip
    rw [dropWhile_append_cons _ hcs, ← ha]
    rw [List.reverse_append, List.reverse_cons, List.append_assoc]
    rw [show [cmt] ++ a.reverse = cmt :: a.reverse from rfl]
    rw [dropWhile_append_cons _ hcs]
    rw [List.reverse_append, List.reverse_cons]
    rw [List.reverse_reverse, List.append_assoc]
    rfl
  have hstep2 : beforeComment (a ++ cmt :: (c.reverse.dropWhile isPySpace).reverse) = a := by
    apply takeWhile_append_of_all
    · intro ch hch
      have : ch ∈ line := (List.dropWhile_sublist _).mem (ha ▸ hch)
      simp [hl ch this]
    · simp [hcmt]
  have hstep3 : beforeComment (pyStrip line) = pyStrip line := by
    apply beforeComment_eq_self_of_all
    intro ch hch
    exact hl ch (mem_pyStrip hch)
  rw [hstep1, hstep2, hstep3, ha]
  exact pyStrip_dropWhile line



/-! ### Claim C6 -/

/-- C6, counterexample: the claim says every classifier strips a trailing
    `#`-introduced comment, but geosite.py `parse_domain_line` keeps it (the
    stored value below still carries ` #x`), and geoip.py `remove_comments`
    also leaves trailing comments in place (it only drops whole lines that
    begin with a comment character). -/
theorem c6_counterexample :
    Geosite.parse_domain_line ("DOMAIN,example.com #x".data) =
      (["example.com #x".data], []) ∧
    Geoip.remove_comments (["10.0.0.0/8 # lan".data]) = ["10.0.0.0/8 # lan".data] := by
  constructor
  · rfl
  · rfl

/-- C6, amended: in generate.py both classifiers strip surrounding
    whitespace and a trailing `#`- or `；`-introduced comment, and classify a
    line that is empty after that as unrecognized; appending a comment to a
    comment-free line never changes the classification.  (geosite.py strips
    only whitespace and geoip.py only drops whole comment lines, per the
    counterexample.) -/
theorem c6_comment_handling (line c : List Char) (cmt : Char)
    (hl : ∀ ch ∈ line, isCommentChar ch = false) (hcmt : isCommentChar cmt = true) :
    (Generate.process_domain_line (line ++ cmt :: c) = Generate.process_domain_line line ∧
     Generate.process_ip_line (line ++ cmt :: c) = Generate.process_ip_line line) ∧
    ∀ w, (∀ ch ∈ w, isPySpace ch = true) →
      Generate.process_domain_line w = (none, none) ∧ Generate.process_ip_line w = none := by
  constructor
  · constructor
    · simp only [Generate.process_domain_line]
      rw [stripCommentStrip_append line c hl hcmt]
    · simp only [Generate.process_ip_line]
      rw [stripCommentStrip_append line c hl hcmt]
  · intro w hw
    have hnil : pyStrip (beforeComment (pyStrip w)) = [] := by
      have h1 : pyStrip w = [] := by
        unfold pyStrip
        rw [dropWhile_eq_nil_of_all hw]
        rfl
      rw [h1]
      rfl
    constructor
    · simp only [Generate.process_domain_line]
      rw [hnil]
      rfl
    · simp only [Generate.process_ip_line]
      rw [hnil]
      rfl

/-- C6, witness: the amended theorem applied to a concrete line and comment. -/
theorem c6_witness :
    Generate.process_domain_line (" DOMAIN,example.com".data ++ '#' :: " note".data) =
      Generate.process_domain_line (" DOMAIN,example.com".data) ∧
    Generate.process_ip_line (" DOMAIN,example.com".data ++ '#' :: " note".data) =
      Generate.process_ip_line (" DOMAIN,example.com".data) :=
  (c6_comment_handling (" DOMAIN,example.com".data) (" note".data) '#'
    (by decide) (by decide)).1

/-! ### Claim C4 -/

/-- C4, counterexample: the claim says an empty category contributes no key
    to the emitted JSON object, but generate.py `write_domain_json` with an
    empty domain list still emits a `domain` key bound to an empty array. -/
theorem c4_counterexample :
    getRuleField (Generate.write_domain_json [] ["example.com".data]) ("domain".data) =
      some (.arr []) ∧
    ruleKeys (Generate.write_domain_json [] ["example.com".data]) =
      some ["domain".data, "domain_suffix".data] := by
  constructor
  · rfl
  · rfl

/-- C4, amended: the JSON writers emit a fixed key set regardless of
    emptiness: the domain writers always emit exactly `domain` and
    `domain_suffix` (and never `ip_cidr`), and the IP writers always emit
    exactly `ip_cidr`, holding the IPv4 entries followed by the IPv6 entries
    in geoip.py.  Emptiness is only checked at the job level, which skips all
    files at once. -/
theorem c4_json_keys (d s v4 v6 : List (List Char)) :
    ruleKeys (Generate.write_domain_json d s) = some ["domain".data, "domain_suffix".data] ∧
    getRuleField (Generate.write_domain_json d s) ("domain".data) = some (.arr (d.map .str)) ∧
    getRuleField (Generate.write_domain_json d s) ("ip_cidr".data) = none ∧
    ruleKeys (Geosite.write_json d s) = some ["domain".data, "domain_suffix".data] ∧
    getRuleField (Geosite.write_json d s) ("ip_cidr".data) = none ∧
    ruleKeys (Geoip.write_json v4 v6) = some ["ip_cidr".data] ∧
    getRuleField (Geoip.write_json v4 v6) ("ip_cidr".data) =
      some (.arr ((v4 ++ v6).map .str)) ∧
    ruleKeys (Generate.write_ip_json v4) = some ["ip_cidr".data] :=
  ⟨rfl, rfl, rfl, rfl, rfl, rfl, rfl, rfl⟩

/-! ### Structure of strings accepted by is_valid_ip_cidr -/

lemma matchOct_decomp {cs r : List Char} (h : Generate.matchOct cs = some r) :
    ∃ d, cs = d ++ '.' :: r ∧ d ≠ [] ∧ ∀ c ∈ d, isDigitA c = true := by
  simp only [Generate.matchOct] at h
  split_ifs at h with hlen
  · split at h
    · rename_i r2 heq
      simp only [Option.some.injEq] at h
      subst h
      refine ⟨cs.takeWhile isDigitA, ?_, ?_, fun c hc => List.mem_takeWhile_imp hc⟩
      · conv_lhs => rw [← List.takeWhile_append_dropWhile isDigitA cs]
        rw [heq]
      · intro hnil
        rw [hnil] at hlen
        simp at hlen
    · simp at h

lemma matchHexGroup_decomp {cs r : List Char} (h : Generate.matchHexGroup cs = some r) :
    ∃ d, cs = d ++ ':' :: r ∧ d ≠ [] ∧ ∀ c ∈ d, isHexA c = true := by
  simp only [Generate.matchHexGroup] at h
  split_ifs at h with hlen
  · split at h
    · rename_i r2 heq
      simp only [Option.some.injEq] at h
      subst h
      refine ⟨cs.takeWhile isHexA, ?_, ?_, fun c hc => List.mem_takeWhile_imp hc⟩
      · conv_lhs => rw [← List.takeWhile_append_dropWhile isHexA cs]
        rw [heq]
      · intro hnil
        rw [hnil] at hlen
        simp at hlen
    · simp at h

lemma matchTail4_decomp {cs : List Char} (h : Generate.matchTail4 cs = true) :
    ∃ d rest, cs = d ++ rest ∧ d ≠ [] ∧ (∀ c ∈ d, isDigitA c = true) ∧
      (rest = [] ∨ ∃ ps, rest = '/' :: ps ∧ ∀ c ∈ ps, isDigitA c = true) := by
  simp only [Generate.matchTail4] at h
  split_ifs at h with hlen
  · refine ⟨cs.takeWhile isDigitA, cs.dropWhile isDigitA,
      (List.takeWhile_append_dropWhile _ _).symm, ?_,
      fun c hc => List.mem_takeWhile_imp hc, ?_⟩
    · intro hnil
      rw [hnil] at hlen
      simp at hlen
    · split at h
      · rename_i heq
        exact Or.inl heq
      · rename_i ps heq
        refine Or.inr ⟨ps, heq, ?_⟩
        simp only [Bool.and_eq_true, List.all_eq_true] at h
        exact h.2
      · simp at h

lemma matchTail6_decomp {cs : List Char} (h : Generate.matchTail6 cs = true) :
    ∃ d rest, cs = d ++ rest ∧ d ≠ [] ∧ (∀ c ∈ d, isHexA c = true) ∧
      (rest = [] ∨ ∃ ps, rest = '/' :: ps ∧ ∀ c ∈ ps, isDigitA c = true) := by
  simp only [Generate.matchTail6] at h
  split_ifs at h with hlen
  · refine ⟨cs.takeWhile isHexA, cs.dropWhile isHexA,
      (List.takeWhile_append_dropWhile _ _).symm, ?_,
      fun c hc => List.mem_takeWhile_imp hc, ?_⟩
    · intro hnil
      rw [hnil] at hlen
      simp at hlen
    · split at h
      · rename_i heq
        exact Or.inl heq
      · rename_i ps heq
        refine Or.inr ⟨ps, heq, ?_⟩
        simp only [Bool.and_eq_true, List.all_eq_true] at h
        exact h.2
      · simp at h

lemma tail4_chars {cs : List Char} (h : Generate.matchTail4 cs = true) :
    cs ≠ [] ∧ ∀ c ∈ cs, isIpChar c = true := by
  obtain ⟨d, rest, rfl, hdne, hdd, hrest⟩ := matchTail4_decomp h
  constructor
  · simp [hdne]
  · intro c hc
    rcases List.mem_append.mp hc with hc | hc
    · exact digit_isIpChar (hdd c hc)
    · rcases hrest with rfl | ⟨ps, rfl, hps⟩
      · simp at hc
      · rcases List.mem_cons.mp hc with rfl | hc2
        · decide
        · exact digit_isIpChar (hps c hc2)

lemma tail6_chars {cs : List Char} (h : Generate.matchTail6 cs = true) :
    cs ≠ [] ∧ ∀ c ∈ cs, isIpChar c = true := by
  obtain ⟨d, rest, rfl, hdne, hdd, hrest⟩ := matchTail6_decomp h
  constructor
  · simp [hdne]
  · intro c hc
    rcases List.mem_append.mp hc with hc | hc
    · exact hex_isIpChar (hdd c hc)
    · rcases hrest with rfl | ⟨ps, rfl, hps⟩
      · simp at hc
      · rcases List.mem_cons.mp hc with rfl | hc2
        · decide
        · exact digit_isIpChar (hps c hc2)

lemma oct_chars_step {cs r : List Char} (hd : Generate.matchOct cs = some r)
    (hr : ∀ c ∈ r, isIpChar c = true) : cs ≠ [] ∧ ∀ c ∈ cs, isIpChar c = true := by
  obtain ⟨d, rfl, hdne, hdd⟩ := matchOct_decomp hd
  constructor
  · simp [hdne]
  · intro c hc
    rcases List.mem_append.mp hc with hc | hc
    · exact digit_isIpChar (hdd c hc)
    · rcases List.mem_cons.mp hc with rfl | hc2
      · decide
      · exact hr c hc2

lemma hex_chars_step {cs r : List Char} (hd : Generate.matchHexGroup cs = some r)
    (hr : ∀ c ∈ r, isIpChar c = true) : cs ≠ [] ∧ ∀ c ∈ cs, isIpChar c = true := by
  obtain ⟨d, rfl, hdne, hdd⟩ := matchHexGroup_decomp hd
  constructor
  · simp [hdne]
  · intro c hc
    rcases List.mem_append.mp hc with hc | hc
    · exact hex_isIpChar (hdd c hc)
    · rcases List.mem_cons.mp hc with rfl | hc2
      · decide
      · exact hr c hc2

lemma isIpv4Shape_chars {cs : List Char} (h : Generate.isIpv4Shape cs = true) :
    cs ≠ [] ∧ ∀ c ∈ cs, isIpChar c = true := by
  simp only [Generate.isIpv4Shape] at h
  split at h
  · rename_i r1 h1
    split at h
    · rename_i r2 h2
      split at h
      · rename_i r3 h3
        exact oct_chars_step h1 (oct_chars_step h2 (oct_chars_step h3 (tail4_chars h).2).2).2
      · simp at h
    · simp at h
  · simp at h

lemma isIpv6Shape_chars {cs : List Char} (h : Generate.isIpv6Shape cs = true) :
    cs ≠ [] ∧ ∀ c ∈ cs, isIpChar c = true := by
  simp only [Generate.isIpv6Shape] at h
  split at h
  · rename_i r hbind
    obtain ⟨a6, hb6, h7⟩ := Option.bind_eq_some.mp hbind
    obtain ⟨a5, hb5, h6⟩ := Option.bind_eq_some.mp hb6
    obtain ⟨a4, hb4, h5⟩ := Option.bind_eq_some.mp hb5
    obtain ⟨a3, hb3, h4⟩ := Option.bind_eq_some.mp hb4
    obtain ⟨a2, hb2, h3⟩ := Option.bind_eq_some.mp hb3
    obtain ⟨a1, hb1, h2⟩ := Option.bind_eq_some.mp hb2
    exact hex_chars_step hb1 (hex_chars_step h2 (hex_chars_step h3 (hex_chars_step h4
      (hex_chars_step h5 (hex_chars_step h6 (hex_chars_step h7 (tail6_chars h).2).2).2).2).2).2).2
  · simp at h

lemma is_valid_ip_cidr_chars {cs : List Char} (h : Generate.is_valid_ip_cidr cs = true) :
    cs ≠ [] ∧ ∀ c ∈ cs, isIpChar c = true := by
  simp only [Generate.is_valid_ip_cidr, Bool.or_eq_true] at h
  rcases h with h | h
  · exact isIpv4Shape_chars h
  · exact isIpv6Shape_chars h

/-! ### Extraction of validated tokens by process_ip_line -/

lemma isPrefixOf_cons_of_ne {a b : Char} {as bs : List Char} (h : a ≠ b) :
    (a :: as).isPrefixOf (b :: bs) = false := by
  simp [List.isPrefixOf, h]

lemma nonSpaceRun_all {s : List Char} (hne : s ≠ []) (hs : ∀ c ∈ s, isPySpace c = false) :
    Generate.nonSpaceRun s = some s := by
  simp only [Generate.nonSpaceRun]
  rw [takeWhile_eq_self_of_all (fun c hc => by simp [hs c hc])]
  rw [if_neg hne]

lemma matchAtPos_ipchars {s : List Char} (hne : s ≠ []) (hs : ∀ c ∈ s, isIpChar c = true) :
    Generate.matchAtPos s = some s := by
  obtain ⟨c0, t, rfl⟩ := List.exists_cons_of_ne_nil hne
  have hc0 : c0 ≠ 'I' := ipChar_ne_I (hs c0 (by simp))
  have hp8 : ("IP-CIDR6".data).isPrefixOf (c0 :: t) = false := by
    rw [show ("IP-CIDR6".data) = 'I' :: ("P-CIDR6".data) from rfl]
    exact isPrefixOf_cons_of_ne (Ne.symm hc0)
  have hp7 : ("IP-CIDR".data).isPrefixOf (c0 :: t) = false := by
    rw [show ("IP-CIDR".data) = 'I' :: ("P-CIDR".data) from rfl]
    exact isPrefixOf_cons_of_ne (Ne.symm hc0)
  simp only [Generate.matchAtPos]
  rw [if_neg_bool hp8, if_neg_bool hp7]
  show Generate.nonSpaceRun (c0 :: t) = some (c0 :: t)
  exact nonSpaceRun_all hne (fun c hc => ipChar_not_space (hs c hc))

lemma matchSepsRest_comma {s : List Char} (hne : s ≠ []) (hs : ∀ c ∈ s, isIpChar c = true) :
    Generate.matchSepsRest (',' :: s) = some s := by
  obtain ⟨c0, t, rfl⟩ := List.exists_cons_of_ne_nil hne
  have h1 : (',' :: c0 :: t).takeWhile Generate.isSepChar = [','] := by
    rw [List.takeWhile_cons]
    simp only [show Generate.isSepChar ',' = true from rfl, if_true]
    rw [List.takeWhile_cons]
    simp [ipChar_not_sep (hs c0 (by simp))]
  simp only [Generate.matchSepsRest]
  rw [h1]
  show Generate.sepsRestGo (',' :: c0 :: t) 1 = some (c0 :: t)
  simp only [Generate.sepsRestGo]
  rw [show ((',' :: c0 :: t).drop 1) = c0 :: t from rfl]
  rw [nonSpaceRun_all (by simp) (fun c hc => ipChar_not_space (hs c hc))]

/-- A token accepted by `is_valid_ip_cidr` is extracted verbatim by
    `process_ip_line`, with no canonicalization of any kind. -/
lemma process_ip_line_of_valid {s : List Char} (h : Generate.is_valid_ip_cidr s = true) :
    Generate.process_ip_line s = some s := by
  obtain ⟨hne, hchars⟩ := is_valid_ip_cidr_chars h
  have hstrip : pyStrip s = s :=
    pyStrip_eq_self_of_all (fun c hc => ipChar_not_space (hchars c hc))
  have hcomment : beforeComment s = s :=
    beforeComment_eq_self_of_all (fun c hc => ipChar_not_comment (hchars c hc))
  simp only [Generate.process_ip_line]
  rw [hstrip, hcomment, hstrip, if_neg hne]
  obtain ⟨c0, t, rfl⟩ := List.exists_cons_of_ne_nil hne
  simp only [Generate.extract_ip_cidr, Generate.reSearchGroup2]
  rw [matchAtPos_ipchars hne hchars]
  show (if Generate.is_valid_ip_cidr (c0 :: t) = true then some (c0 :: t) else none) =
    some (c0 :: t)
  rw [if_pos_bool h]

/-- Lines written by generate.py `write_ip_list` re-classify to the original
    token: both the `IP-CIDR,` and the `IP-CIDR6,` tag are stripped by
    `extract_ip_cidr` and the validated token is returned verbatim. -/
lemma process_ip_line_tag {s : List Char} (h : Generate.is_valid_ip_cidr s = true) :
    Generate.process_ip_line ("IP-CIDR,".data ++ s) = some s ∧
    Generate.process_ip_line ("IP-CIDR6,".data ++ s) = some s := by
  obtain ⟨hne, hchars⟩ := is_valid_ip_cidr_chars h
  have hrest : Generate.matchSepsRest (',' :: s) = some s := matchSepsRest_comma hne hchars
  constructor
  · have hstrip : pyStrip ("IP-CIDR,".data ++ s) = "IP-CIDR,".data ++ s := by
      apply pyStrip_eq_self_of_all
      intro c hc
      rcases List.mem_append.mp hc with hc | hc
      · exact (show ∀ c ∈ "IP-CIDR,".data, isPySpace c = false by decide) c hc
      · exact ipChar_not_space (hchars c hc)
    have hcomment : beforeComment ("IP-CIDR,".data ++ s) = "IP-CIDR,".data ++ s := by
      apply beforeComment_eq_self_of_all
      intro c hc
      rcases List.mem_append.mp hc with hc | hc
      · exact (show ∀ c ∈ "IP-CIDR,".data, isCommentChar c = false by decide) c hc
      · exact ipChar_not_comment (hchars c hc)
    simp only [Generate.process_ip_line]
    rw [hstrip, hcomment, hstrip, if_neg (by simp : ¬("IP-CIDR,".data ++ s = []))]
    simp only [Generate.extract_ip_cidr]
    have hsearch : Generate.reSearchGroup2 ("IP-CIDR,".data ++ s) = some s := by
      rw [show ("IP-CIDR,".data ++ s) = 'I' :: ("P-CIDR,".data ++ s) from rfl,
        Generate.reSearchGroup2]
      have hatpos : Generate.matchAtPos ('I' :: ("P-CIDR,".data ++ s)) = some s := by
        simp only [Generate.matchAtPos]
        rw [if_neg_bool (show ("IP-CIDR6".data).isPrefixOf ('I' :: ("P-CIDR,".data ++ s)) =
          false from rfl)]
        rw [if_pos_bool (show ("IP-CIDR".data).isPrefixOf ('I' :: ("P-CIDR,".data ++ s)) =
          true from by
            rw [show ('I' :: ("P-CIDR,".data ++ s)) = "IP-CIDR".data ++ (',' :: s) from rfl]
            exact isPrefixOf_append_self _ _)]
        rw [show (('I' :: ("P-CIDR,".data ++ s)).drop 7) = ',' :: s from rfl, hrest]
      rw [hatpos]
    rw [hsearch]
    show (if Generate.is_valid_ip_cidr s = true then some s else none) = some s
    rw [if_pos_bool h]
  · have hstrip : pyStrip ("IP-CIDR6,".data ++ s) = "IP-CIDR6,".data ++ s := by
      apply pyStrip_eq_self_of_all
      intro c hc
      rcases List.mem_append.mp hc with hc | hc
      · exact (show ∀ c ∈ "IP-CIDR6,".data, isPySpace c = false by decide) c hc
      · exact ipChar_not_space (hchars c hc)
    have hcomment : beforeComment ("IP-CIDR6,".data ++ s) = "IP-CIDR6,".data ++ s := by
      apply beforeComment_eq_self_of_all
      intro c hc
      rcases List.mem_append.mp hc with hc | hc
      · exact (show ∀ c ∈ "IP-CIDR6,".data, isCommentChar c = false by decide) c hc
      · exact ipChar_not_comment (hchars c hc)
    simp only [Generate.process_ip_line]
    rw [hstrip, hcomment, hstrip, if_neg (by simp : ¬("IP-CIDR6,".data ++ s = []))]
    simp only [Generate.extract_ip_cidr]
    have hsearch : Generate.reSearchGroup2 ("IP-CIDR6,".data ++ s) = some s := by
      rw [show ("IP-CIDR6,".data ++ s) = 'I' :: ("P-CIDR6,".data ++ s) from rfl,
        Generate.reSearchGroup2]
      have hatpos : Generate.matchAtPos ('I' :: ("P-CIDR6,".data ++ s)) = some s := by
        simp only [Generate.matchAtPos]
        rw [if_pos_bool (show ("IP-CIDR6".data).isPrefixOf ('I' :: ("P-CIDR6,".data ++ s)) =
          true from by
            rw [show ('I' :: ("P-CIDR6,".data ++ s)) = "IP-CIDR6".data ++ (',' :: s) from rfl]
            exact isPrefixOf_append_self _ _)]
        rw [show (('I' :: ("P-CIDR6,".data ++ s)).drop 8) = ',' :: s from rfl, hrest]
      rw [hatpos]
    rw [hsearch]
    show (if Generate.is_valid_ip_cidr s = true then some s else none) = some s
    rw [if_pos_bool h]

/-! ### Claim C7 -/

/-- C7, counterexample: the claim says a bare IPv4 address classified as an
    IPCIDR entry is stored with an explicit `/32` prefix, but generate.py
    stores `1.2.3.4` verbatim, with no slash at all. -/
theorem c7_counterexample :
    Generate.process_ip_line ("1.2.3.4".data) = some ("1.2.3.4".data) ∧
    ¬ ('/' ∈ "1.2.3.4".data) := by
  constructor
  · rfl
  · decide

/-- C7, amended: generate.py stores every token accepted by
    `is_valid_ip_cidr` verbatim — in particular a bare IPv4 address (the
    pattern makes the prefix optional) is kept without appending `/32`, and
    no canonical CIDR notation is produced. -/
theorem c7_verbatim (s : List Char) (h : Generate.is_valid_ip_cidr s = true) :
    Generate.process_ip_line s = some s :=
  process_ip_line_of_valid h

/-- C7, witness: the amended theorem applied to the bare address `1.2.3.4`. -/
theorem c7_witness :
    Generate.is_valid_ip_cidr ("1.2.3.4".data) = true ∧
    Generate.process_ip_line ("1.2.3.4".data) = some ("1.2.3.4".data) :=
  ⟨by decide, c7_verbatim ("1.2.3.4".data) (by decide)⟩

/-! ### Claim C2 -/



lemma matchOct_build {d : List Char} (hne : d ≠ []) (hlen : d.length ≤ 3)
    (hd : ∀ c ∈ d, isDigitA c = true) (rest : List Char) :
    Generate.matchOct (d ++ '.' :: rest) = some rest := by
  simp only [Generate.matchOct]
  rw [takeWhile_append_of_all hd (by decide) rest,
    dropWhile_append_of_all hd (by decide) rest]
  rw [if_pos ⟨List.length_pos.mpr hne, hlen⟩]
  rfl

lemma matchHexGroup_build {g : List Char} (hne : g ≠ []) (hlen : g.length ≤ 4)
    (hg : ∀ c ∈ g, isHexA c = true) (rest : List Char) :
    Generate.matchHexGroup (g ++ ':' :: rest) = some rest := by
  simp only [Generate.matchHexGroup]
  rw [takeWhile_append_of_all hg (by decide) rest,
    dropWhile_append_of_all hg (by decide) rest]
  rw [if_pos ⟨List.length_pos.mpr hne, hlen⟩]
  rfl

lemma matchTail4_build {d : List Char} (hne : d ≠ []) (hlen : d.length ≤ 3)
    (hd : ∀ c ∈ d, isDigitA c = true) (pfx : Option (List Char)) (hp : PfxShape 2 pfx) :
    Generate.matchTail4 (d ++ pfxPart pfx) = true := by
  cases pfx with
  | none =>
    simp only [pfxPart, List.append_nil, Generate.matchTail4]
    rw [takeWhile_eq_self_of_all hd, dropWhile_eq_nil_of_all hd]
    rw [if_pos ⟨List.length_pos.mpr hne, hlen⟩]
  | some ps =>
    obtain ⟨hpne, hplen, hpd⟩ := hp
    simp only [pfxPart, Generate.matchTail4]
    rw [takeWhile_append_of_all hd (by decide) ps,
      dropWhile_append_of_all hd (by decide) ps]
    rw [if_pos ⟨List.length_pos.mpr hne, hlen⟩]
    simp only [Bool.and_eq_true, decide_eq_true_eq, List.all_eq_true]
    exact ⟨⟨List.length_pos.mpr hpne, hplen⟩, hpd⟩

lemma matchTail6_build {g : List Char} (hne : g ≠ []) (hlen : g.length ≤ 4)
    (hg : ∀ c ∈ g, isHexA c = true) (pfx : Option (List Char)) (hp : PfxShape 3 pfx) :
    Generate.matchTail6 (g ++ pfxPart pfx) = true := by
  cases pfx with
  | none =>
    simp only [pfxPart, List.append_nil, Generate.matchTail6]
    rw [takeWhile_eq_self_of_all hg, dropWhile_eq_nil_of_all hg]
    rw [if_pos ⟨List.length_pos.mpr hne, hlen⟩]
  | some ps =>
    obtain ⟨hpne, hplen, hpd⟩ := hp
    simp only [pfxPart, Generate.matchTail6]
    rw [takeWhile_append_of_all hg (by decide) ps,
      dropWhile_append_of_all hg (by decide) ps]
    rw [if_pos ⟨List.length_pos.mpr hne, hlen⟩]
    simp only [Bool.and_eq_true, decide_eq_true_eq, List.all_eq_true]
    exact ⟨⟨List.length_pos.mpr hpne, hplen⟩, hpd⟩

/-- C2, counterexample: the claim says the validator rejects octets above 255
    and out-of-range prefixes, but generate.py `is_valid_ip_cidr` accepts
    `999.999.999.999` and `1.2.3.4/99`, both rejected by the spec-modelled
    reference validator `specValidIpCidr`. -/
theorem c2_counterexample :
    Generate.is_valid_ip_cidr ("999.999.999.999".data) = true ∧
    specValidIpCidr ("999.999.999.999".data) = false ∧
    Generate.is_valid_ip_cidr ("1.2.3.4/99".data) = true ∧
    specValidIpCidr ("1.2.3.4/99".data) = false := by
  refine ⟨?_, ?_, ?_, ?_⟩ <;> decide

/-- C2, amended: generate.py `is_valid_ip_cidr` checks digit-count shape
    only.  It accepts every string of four dot-separated runs of 1 to 3
    decimal digits with an optional slash followed by 1 to 2 digits, and
    every string of eight colon-separated runs of 1 to 4 hexadecimal digits
    with an optional slash followed by 1 to 3 digits — regardless of numeric
    value, so octets above 255 and prefixes above 32 (v4) or 128 (v6) pass. -/
theorem c2_shape_acceptance (d1 d2 d3 d4 : List Char) (p4 : Option (List Char))
    (g1 g2 g3 g4 g5 g6 g7 g8 : List Char) (p6 : Option (List Char))
    (h1 : OctetShape d1) (h2 : OctetShape d2) (h3 : OctetShape d3) (h4 : OctetShape d4)
    (hp4 : PfxShape 2 p4)
    (hg1 : HexShape g1) (hg2 : HexShape g2) (hg3 : HexShape g3) (hg4 : HexShape g4)
    (hg5 : HexShape g5) (hg6 : HexShape g6) (hg7 : HexShape g7) (hg8 : HexShape g8)
    (hp6 : PfxShape 3 p6) :
    Generate.is_valid_ip_cidr
      (d1 ++ '.' :: (d2 ++ '.' :: (d3 ++ '.' :: (d4 ++ pfxPart p4)))) = true ∧
    Generate.is_valid_ip_cidr
      (g1 ++ ':' :: (g2 ++ ':' :: (g3 ++ ':' :: (g4 ++ ':' :: (g5 ++ ':' :: (g6 ++ ':' ::
        (g7 ++ ':' :: (g8 ++ pfxPart p6)))))))) = true := by
  constructor
  · have hv4 : Generate.isIpv4Shape
        (d1 ++ '.' :: (d2 ++ '.' :: (d3 ++ '.' :: (d4 ++ pfxPart p4)))) = true := by
      simp only [Generate.isIpv4Shape,
        matchOct_build h1.1 h1.2.1 h1.2.2,
        matchOct_build h2.1 h2.2.1 h2.2.2,
        matchOct_build h3.1 h3.2.1 h3.2.2]
      exact matchTail4_build h4.1 h4.2.1 h4.2.2 p4 hp4
    simp [Generate.is_valid_ip_cidr, hv4]
  · have hv6 : Generate.isIpv6Shape
        (g1 ++ ':' :: (g2 ++ ':' :: (g3 ++ ':' :: (g4 ++ ':' :: (g5 ++ ':' :: (g6 ++ ':' ::
          (g7 ++ ':' :: (g8 ++ pfxPart p6)))))))) = true := by
      simp only [Generate.isIpv6Shape,
        matchHexGroup_build hg1.1 hg1.2.1 hg1.2.2,
        matchHexGroup_build hg2.1 hg2.2.1 hg2.2.2,
        matchHexGroup_build hg3.1 hg3.2.1 hg3.2.2,
        matchHexGroup_build hg4.1 hg4.2.1 hg4.2.2,
        matchHexGroup_build hg5.1 hg5.2.1 hg5.2.2,
        matchHexGroup_build hg6.1 hg6.2.1 hg6.2.2,
        matchHexGroup_build hg7.1 hg7.2.1 hg7.2.2, Option.some_bind]
      exact matchTail6_build hg8.1 hg8.2.1 hg8.2.2 p6 hp6
    simp [Generate.is_valid_ip_cidr, hv6]

/-- C2, witness: the amended theorem applied to the out-of-range octets
    `999.999.999.999` with prefix `/99`, and to an all-f IPv6 literal with
    prefix `/999`. -/
theorem c2_witness :
    OctetShape ("999".data) ∧ PfxShape 2 (some ("99".data)) ∧
    HexShape ("ffff".data) ∧ PfxShape 3 (some ("999".data)) ∧
    (Generate.is_valid_ip_cidr ("999".data ++ '.' :: ("999".data ++ '.' :: ("999".data ++
        '.' :: ("999".data ++ pfxPart (some ("99".data)))))) = true ∧
     Generate.is_valid_ip_cidr ("ffff".data ++ ':' :: ("ffff".data ++ ':' :: ("ffff".data ++
        ':' :: ("ffff".data ++ ':' :: ("ffff".data ++ ':' :: ("ffff".data ++ ':' ::
        ("ffff".data ++ ':' :: ("ffff".data ++ pfxPart (some ("999".data)))))))))) = true) :=
  ⟨by decide, by decide, by decide, by decide,
   c2_shape_acceptance ("999".data) ("999".data) ("999".data) ("999".data)
     (some ("99".data)) ("ffff".data) ("ffff".data) ("ffff".data) ("ffff".data)
     ("ffff".data) ("ffff".data) ("ffff".data) ("ffff".data) (some ("999".data))
     (by decide) (by decide) (by decide) (by decide) (by decide)
     (by decide) (by decide) (by decide) (by decide) (by decide)
     (by decide) (by decide) (by decide) (by decide)⟩

/-! ### Claim C5 -/



lemma collect_domain_lines (L : List (List Char)) (hL : ∀ d ∈ L, Storable d) :
    (L.map (fun d => "DOMAIN,".data ++ d)).flatMap
      (fun l => (Geosite.parse_domain_line l).1) = L ∧
    (L.map (fun d => "DOMAIN,".data ++ d)).flatMap
      (fun l => (Geosite.parse_domain_line l).2) = [] := by
  induction L with
  | nil => simp
  | cons x t ih =>
    have hx := geo_pdl_domain x (hL x (by simp))
    have iht := ih (fun d hd => hL d (by simp [hd]))
    constructor
    · simp only [List.map_cons, List.flatMap_cons, hx, iht.1]
      rfl
    · simp only [List.map_cons, List.flatMap_cons, hx, iht.2]
      rfl

lemma collect_suffix_lines (L : List (List Char)) (hL : ∀ s ∈ L, Storable s) :
    (L.map (fun s => "DOMAIN-SUFFIX,".data ++ s)).flatMap
      (fun l => (Geosite.parse_domain_line l).1) = [] ∧
    (L.map (fun s => "DOMAIN-SUFFIX,".data ++ s)).flatMap
      (fun l => (Geosite.parse_domain_line l).2) = L := by
  induction L with
  | nil => simp
  | cons x t ih =>
    have hx := geo_pdl_suffix x (hL x (by simp))
    have iht := ih (fun s hs => hL s (by simp [hs]))
    constructor
    · simp only [List.map_cons, List.flatMap_cons, hx, iht.1]
      rfl
    · simp only [List.map_cons, List.flatMap_cons, hx, iht.2]
      rfl

/-- C5: encoding a rule set to List format and re-classifying every produced
    line reproduces it exactly.  Domain and suffix entries survive the trip
    through geosite.py `write_list` and `parse_domain_line`, and CIDR entries
    survive the trip through generate.py `write_ip_list` (`IP-CIDR,` or
    `IP-CIDR6,` tag as the family dictates) and `process_ip_line`.  The
    hypotheses are the invariants of stored values: domain-side values are
    non-empty, newline-free and have no trailing whitespace; CIDR values were
    accepted by the validator. -/
theorem c5_roundtrip (D S C : List (List Char))
    (hD : ∀ d ∈ D, Storable d) (hS : ∀ s ∈ S, Storable s)
    (hC : ∀ c ∈ C, Generate.is_valid_ip_cidr c = true) :
    collect_lines (Geosite.write_list_lines D S) = (D, S) ∧
    (Generate.write_ip_list_lines C).filterMap Generate.process_ip_line = C := by
  constructor
  · have hdom := collect_domain_lines D hD
    have hsuf := collect_suffix_lines S hS
    simp only [collect_lines, Geosite.write_list_lines, List.flatMap_append,
      hdom.1, hdom.2, hsuf.1, hsuf.2]
    simp
  · induction C with
    | nil => simp [Generate.write_ip_list_lines]
    | cons c t ih =>
      have hc := hC c (by simp)
      have iht := ih (fun x hx => hC x (by simp [hx]))
      simp only [Generate.write_ip_list_lines, List.map_cons, List.filterMap_cons]
      by_cases hcol : c.contains ':' = true
      · rw [if_pos_bool hcol, (process_ip_line_tag hc).2]
        simpa [Generate.write_ip_list_lines] using iht
      · rw [if_neg_bool (Bool.eq_false_iff.mpr hcol), (process_ip_line_tag hc).1]
        simpa [Generate.write_ip_list_lines] using iht

/-- C5, witness: the round trip applied to a concrete rule set with one
    domain, one suffix, one IPv4 CIDR and one IPv6 CIDR. -/
theorem c5_witness :
    (∀ d ∈ [("example.com".data)], Storable d) ∧
    (∀ s ∈ [("cdn.net".data)], Storable s) ∧
    (∀ c ∈ [("10.0.0.0/8".data), ("2001:db8:0:0:0:0:0:1/128".data)],
      Generate.is_valid_ip_cidr c = true) ∧
    (collect_lines (Geosite.write_list_lines [("example.com".data)] [("cdn.net".data)]) =
      ([("example.com".data)], [("cdn.net".data)]) ∧
    (Generate.write_ip_list_lines
        [("10.0.0.0/8".data), ("2001:db8:0:0:0:0:0:1/128".data)]).filterMap
      Generate.process_ip_line =
      [("10.0.0.0/8".data), ("2001:db8:0:0:0:0:0:1/128".data)]) :=
  ⟨by decide, by decide, by decide,
   c5_roundtrip [("example.com".data)] [("cdn.net".data)]
     [("10.0.0.0/8".data), ("2001:db8:0:0:0:0:0:1/128".data)]
     (by decide) (by decide) (by decide)⟩

/-! ### Claim C3 -/



/-- C3, counterexample: the claim includes generate.py, whose
    `process_ip_urls` emits `sorted(ip_cidrs)` — a plain lexicographic string
    sort.  On the two networks 2.0.0.0/8 and 10.0.0.0/8 it outputs
    10.0.0.0/8 first although its (network address, prefix) key is larger, so
    the emitted sequence is not ordered by the claimed key. -/
theorem c3_counterexample :
    Generate.process_ip_content [("2.0.0.0/8".data), ("10.0.0.0/8".data)] =
      [("10.0.0.0/8".data), ("2.0.0.0/8".data)] ∧
    Geoip.keyLe (Geoip.cidrKey ("10.0.0.0/8".data)) (Geoip.cidrKey ("2.0.0.0/8".data)) =
      false := by
  constructor
  · rfl
  · rfl

/-- C3, amended: geoip.py `sort_ip_cidrs` does order each family by
    (network address as an integer, then prefix length ascending) — the
    result is a permutation of the input sorted by that key — and its
    `write_json` emits every IPv4 entry before every IPv6 entry; generate.py
    instead sorts the combined set lexicographically as strings, per the
    counterexample. -/
theorem c3_sort_order (l v4 v6 : List (List Char)) :
    List.Sorted Geoip.cidrRel (Geoip.sort_ip_cidrs l) ∧
    (Geoip.sort_ip_cidrs l).Perm l ∧
    getRuleField (Geoip.write_json v4 v6) ("ip_cidr".data) =
      some (.arr ((v4 ++ v6).map .str)) :=
  ⟨List.sorted_insertionSort Geoip.cidrRel l, List.perm_insertionSort Geoip.cidrRel l, rfl⟩

/-! ### Claim C9 -/

lemma ext_eq_of_append_eq {e1 e2 a b : List Char}
    (h1 : e1 ∈ Geosite.geositeExts) (h2 : e2 ∈ Geosite.geositeExts)
    (heq : a ++ e1 = b ++ e2) : e1 = e2 ∧ a = b := by
  have hrev : e1.reverse ++ a.reverse = e2.reverse ++ b.reverse := by
    have h3 := congrArg List.reverse heq
    simpa [List.reverse_append] using h3
  have hpre : e1.reverse <+: e2.reverse ∨ e2.reverse <+: e1.reverse := by
    rcases List.append_eq_append_iff.mp hrev with ⟨t, ht1, ht2⟩ | ⟨t, ht1, ht2⟩
    · exact Or.inl ⟨t, ht1.symm⟩
    · exact Or.inr ⟨t, ht1.symm⟩
  simp only [Geosite.geositeExts] at h1 h2
  fin_cases h1 <;> fin_cases h2 <;>
    first
      | exact ⟨rfl, List.append_cancel_right heq⟩
      | exact absurd hpre (by decide)

lemma geoip_ext_mem {e : List Char} (h : e ∈ Geoip.geoipExts) :
    e ∈ Geosite.geositeExts := by
  simp only [Geoip.geoipExts] at h
  fin_cases h <;> decide

/-- C9, counterexample: in generate.py `main`, a section that produced zero
    entries is reported through `logging.error`, not a warning.  With a
    domain section whose only line is unrecognized and a non-empty IP
    section, the run emits the error report, writes none of the geosite
    files, still writes the four geoip files — and no warning event exists
    anywhere in the run. -/
theorem c9_error_not_warning :
    Generate.mainEvents [("not a domain!!".data)] [("10.0.0.0/8".data)] =
      [FsEvent.error ("rule-set/geosite-cdn".data),
       FsEvent.wrote ("rule-set/geoip-private.txt".data),
       FsEvent.wrote ("rule-set/geoip-private.list".data),
       FsEvent.wrote ("rule-set/geoip-private.yaml".data),
       FsEvent.wrote ("rule-set/geoip-private.json".data)] ∧
    ∀ b, FsEvent.warn b ∉
      Generate.mainEvents [("not a domain!!".data)] [("10.0.0.0/8".data)] := by
  have h : Generate.mainEvents [("not a domain!!".data)] [("10.0.0.0/8".data)] =
      [FsEvent.error ("rule-set/geosite-cdn".data),
       FsEvent.wrote ("rule-set/geoip-private.txt".data),
       FsEvent.wrote ("rule-set/geoip-private.list".data),
       FsEvent.wrote ("rule-set/geoip-private.yaml".data),
       FsEvent.wrote ("rule-set/geoip-private.json".data)] := by rfl
  refine ⟨h, ?_⟩
  intro b hb
  rw [h] at hb
  simp at hb

/-- C9, amended: in geosite.py and geoip.py `process_urls`, a job whose
    sources produce zero entries in every category yields a printed warning,
    writes none of its output files, and leaves the other jobs unaffected
    (processing a concatenation of job lists is the concatenation of
    processing each part); in generate.py `main`, an empty geosite section
    likewise writes no files and the geoip section still runs, but the
    report is a `logging.error` — no warning event is ever emitted there. -/
theorem c9_empty_result (fetch : List Char → List (List Char))
    (sconfig iconfig : List (List Char × List (List Char)))
    (sbase ibase : List Char) (surls iurls : List (List Char))
    (dl il : List (List Char))
    (hsmem : (sbase, surls) ∈ sconfig)
    (hsall : ∀ p ∈ sconfig, p.1 = sbase → Geosite.extract_domains fetch p.2 = ([], []))
    (himem : (ibase, iurls) ∈ iconfig)
    (hiall : ∀ p ∈ iconfig, p.1 = ibase → Geoip.extract_ip_cidrs fetch p.2 = ([], []))
    (hdl : Generate.process_domain_content dl = ([], [])) :
    (FsEvent.warn sbase ∈ Geosite.process_urls fetch sconfig ∧
     (∀ e ∈ Geosite.geositeExts,
       FsEvent.wrote (sbase ++ e) ∉ Geosite.process_urls fetch sconfig) ∧
     (∀ c1 c2, Geosite.process_urls fetch (c1 ++ c2) =
       Geosite.process_urls fetch c1 ++ Geosite.process_urls fetch c2)) ∧
    (FsEvent.warn ibase ∈ Geoip.process_urls fetch iconfig ∧
     (∀ e ∈ Geoip.geoipExts,
       FsEvent.wrote (ibase ++ e) ∉ Geoip.process_urls fetch iconfig) ∧
     (∀ c1 c2, Geoip.process_urls fetch (c1 ++ c2) =
       Geoip.process_urls fetch c1 ++ Geoip.process_urls fetch c2)) ∧
    (FsEvent.error ("rule-set/geosite-cdn".data) ∈ Generate.mainEvents dl il ∧
     (∀ b, FsEvent.warn b ∉ Generate.mainEvents dl il) ∧
     (∀ f, FsEvent.wrote f ∈ Generate.mainEvents dl il →
       f ∈ Generate.geoipPrivateFiles) ∧
     (Generate.process_ip_content il ≠ [] →
       FsEvent.wrote ("rule-set/geoip-private.txt".data) ∈ Generate.mainEvents dl il)) := by
  refine ⟨⟨?_, ?_, ?_⟩, ⟨?_, ?_, ?_⟩, ?_, ?_, ?_, ?_⟩
  · apply List.mem_flatMap.mpr
    refine ⟨(sbase, surls), hsmem, ?_⟩
    have hempty := hsall (sbase, surls) hsmem rfl
    simp [Geosite.jobEvents, hempty]
  · intro e he hcontra
    obtain ⟨p, hp, hin⟩ := List.mem_flatMap.mp hcontra
    by_cases hbase : p.1 = sbase
    · have hempty := hsall p hp hbase
      simp [Geosite.jobEvents, hempty] at hin
    · simp only [Geosite.jobEvents] at hin
      split_ifs at hin with hc
      · simp at hin
      · obtain ⟨e2, he2, heq⟩ := List.mem_map.mp hin
        injection heq with heq2
        obtain ⟨-, hab⟩ := ext_eq_of_append_eq he2 he heq2
        exact hbase hab
  · intro c1 c2
    simp [Geosite.process_urls, List.flatMap_append]
  · apply List.mem_flatMap.mpr
    refine ⟨(ibase, iurls), himem, ?_⟩
    have hempty := hiall (ibase, iurls) himem rfl
    simp [Geoip.jobEvents, hempty]
  · intro e he hcontra
    obtain ⟨p, hp, hin⟩ := List.mem_flatMap.mp hcontra
    by_cases hbase : p.1 = ibase
    · have hempty := hiall p hp hbase
      simp [Geoip.jobEvents, hempty] at hin
    · simp only [Geoip.jobEvents] at hin
      split_ifs at hin with hc
      · simp at hin
      · obtain ⟨e2, he2, heq⟩ := List.mem_map.mp hin
        injection heq with heq2
        obtain ⟨-, hab⟩ := ext_eq_of_append_eq (geoip_ext_mem he2) (geoip_ext_mem he) heq2
        exact hbase hab
  · intro c1 c2
    simp [Geoip.process_urls, List.flatMap_append]
  · simp [Generate.mainEvents, Generate.domainSectionEvents, hdl]
  · intro b hb
    simp only [Generate.mainEvents, List.mem_append] at hb
    rcases hb with h | h
    · simp [Generate.domainSectionEvents, hdl] at h
    · simp only [Generate.ipSectionEvents] at h
      split_ifs at h <;> simp [Generate.geoipPrivateFiles] at h
  · intro f hf
    simp only [Generate.mainEvents, List.mem_append] at hf
    rcases hf with h | h
    · simp [Generate.domainSectionEvents, hdl] at h
    · simp only [Generate.ipSectionEvents] at h
      split_ifs at h with hc
      · simp at h
      · obtain ⟨x, hx, hfx⟩ := List.mem_map.mp h
        injection hfx with h2
        exact h2 ▸ hx
  · intro hne
    simp only [Generate.mainEvents, List.mem_append]
    right
    simp [Generate.ipSectionEvents, hne, Generate.geoipPrivateFiles]

/-- C9, witness: a run where the geosite job `rule-set/empty`, the geoip job
    `rule-set/ip-empty` and the generate domain section all come back empty
    while a sibling job or section does not: the geosite and geoip jobs warn
    and write no `.json` file, and generate reports the error. -/
theorem c9_empty_result_witness :
    FsEvent.warn ("rule-set/empty".data) ∈
      Geosite.process_urls (fun _ => [])
        [(("rule-set/empty".data), [("# only comments".data)]),
         (("rule-set/all".data), [("example.com".data)])] ∧
    FsEvent.wrote ("rule-set/empty".data ++ ".json".data) ∉
      Geosite.process_urls (fun _ => [])
        [(("rule-set/empty".data), [("# only comments".data)]),
         (("rule-set/all".data), [("example.com".data)])] ∧
    FsEvent.warn ("rule-set/ip-empty".data) ∈
      Geoip.process_urls (fun _ => [])
        [(("rule-set/ip-empty".data), [("no cidrs here".data)]),
         (("rule-set/tg".data), [("1.2.3.0/24".data)])] ∧
    FsEvent.wrote ("rule-set/ip-empty".data ++ ".json".data) ∉
      Geoip.process_urls (fun _ => [])
        [(("rule-set/ip-empty".data), [("no cidrs here".data)]),
         (("rule-set/tg".data), [("1.2.3.0/24".data)])] ∧
    FsEvent.error ("rule-set/geosite-cdn".data) ∈
      Generate.mainEvents [("not a domain!!".data)] [("10.0.0.0/8".data)] := by
  have h := c9_empty_result (fun _ => [])
    [(("rule-set/empty".data), [("# only comments".data)]),
     (("rule-set/all".data), [("example.com".data)])]
    [(("rule-set/ip-empty".data), [("no cidrs here".data)]),
     (("rule-set/tg".data), [("1.2.3.0/24".data)])]
    ("rule-set/empty".data) ("rule-set/ip-empty".data)
    [("# only comments".data)] [("no cidrs here".data)]
    [("not a domain!!".data)] [("10.0.0.0/8".data)]
    (by decide) (by decide) (by decide) (by decide) (by decide)
  exact ⟨h.1.1, h.1.2.1 (".json".data) (by decide), h.2.1.1,
    h.2.1.2.1 (".json".data) (by decide), h.2.2.1⟩
